import Mathlib

/-!
Verification development for the nightly-update orchestrator (`src/cron.rs`)
of osm-gimmisn.

The Rust code is shallowly embedded: every fallible operation becomes an
explicit `Except`/outcome value, the file system becomes explicit state
(per-relation artifact slots, a stats directory listing), the clock becomes a
`Nat` timestamp parameter, and the Overpass network becomes a function from
attempt index to an `Attempt` outcome.  Functions keep their source names.

External collaborators that live outside `src/` (the `util` module's
`get_city_key`/`get_sort_key`, the diff engine behind
`write_missing_housenumbers` &c., `stats::generate_json`) are taken as
parameters of the model, exactly as the spec treats them (black boxes).
-/

namespace Gimmisn

/-- Decidable equality of `Except` results, for evaluating the model on
concrete inputs. -/
instance instDecEqExcept {ε α : Type} [DecidableEq ε] [DecidableEq α] :
    DecidableEq (Except ε α) := fun a b =>
  match a, b with
  | .ok x, .ok y =>
    if h : x = y then .isTrue (by rw [h]) else .isFalse (by intro hc; cases hc; exact h rfl)
  | .error x, .error y =>
    if h : x = y then .isTrue (by rw [h]) else .isFalse (by intro hc; cases hc; exact h rfl)
  | .ok _, .error _ => .isFalse (by intro hc; cases hc)
  | .error _, .ok _ => .isFalse (by intro hc; cases hc)

/-- Outcome of one Overpass attempt, as seen by the retry loops in `cron.rs`:
`overpass_query` either fails with an HTTP error, or yields a payload (modelled
by its list of lines) which the loop then persists; the persisting write itself
may fail with an I/O error (which in the source escapes through `?`). -/
inductive Attempt where
  | httpError : Attempt
  | writeError : Attempt
  | fetched (payload : List String) : Attempt

/-- `fn should_retry(retry: i32) -> bool { retry < 20 }` (cron.rs line 72). -/
def should_retry (retry : Int) : Bool :=
  retry < 20

/-- Result of one run of a fetch-retry loop: the last `(payload, mtime)` this
loop durably wrote into the target artifact (if any write happened at all),
whether the loop exited through its success `break`, and the final value of the
`retry` counter (= number of attempts performed). -/
structure FetchResult where
  written : Option (List String × Nat)
  success : Bool
  attemptsMade : Nat
  deriving DecidableEq

/-- The retry loop shared by `update_osm_streets` / `update_osm_housenumbers`
(cron.rs lines 88-108): while `should_retry(retry)`, bump `retry`, query
Overpass; an HTTP error retries, a write error escapes via `?`, a persisted
write of zero length ("short write") retries, any other write succeeds.
`fuel` is the structural bound; callers start with `retry = 0`, `fuel = 20`,
so `fuel = 20 - retry` and the `fuel = 0` fallback coincides with
`should_retry` turning false. -/
def osmFetchLoopAux (a : Nat → Attempt) (t : Nat) :
    Nat → Nat → Option (List String × Nat) → Except Unit FetchResult
  | retry, 0, written => .ok ⟨written, false, retry⟩
  | retry, fuel + 1, written =>
    if should_retry retry then
      match a retry with
      | .httpError => osmFetchLoopAux a t (retry + 1) fuel written
      | .writeError => .error ()
      | .fetched p =>
        if p.length = 0 then osmFetchLoopAux a t (retry + 1) fuel (some (p, t))
        else .ok ⟨some (p, t), true, retry + 1⟩
    else .ok ⟨written, false, retry⟩

/-- The OSM fetch-retry loop, started as in the source: `retry = 0`, ceiling 20. -/
def osmFetchLoop (a : Nat → Attempt) (t : Nat) : Except Unit FetchResult :=
  osmFetchLoopAux a t 0 20 none

/-- The whole-country fetch-retry loop of `update_stats` (cron.rs lines
491-509).  Unlike the OSM-artifact loops it performs no zero-length check:
any successfully fetched payload is written and the loop breaks. -/
def statsFetchLoopAux (a : Nat → Attempt) (t : Nat) :
    Nat → Nat → Option (List String × Nat) → Except Unit FetchResult
  | retry, 0, written => .ok ⟨written, false, retry⟩
  | retry, fuel + 1, written =>
    if should_retry retry then
      match a retry with
      | .httpError => statsFetchLoopAux a t (retry + 1) fuel written
      | .writeError => .error ()
      | .fetched p => .ok ⟨some (p, t), true, retry + 1⟩
    else .ok ⟨written, false, retry⟩

/-- The stats fetch-retry loop, started as in the source. -/
def statsFetchLoop (a : Nat → Attempt) (t : Nat) : Except Unit FetchResult :=
  statsFetchLoopAux a t 0 20 none

/-- The seven per-relation artifacts the relations phase maintains. -/
inductive Task where
  | osmStreets
  | osmHousenumbers
  | refStreets
  | refHousenumbers
  | streetsPercent
  | housenumbersPercent
  | additionalStreetsCount
  deriving DecidableEq

/-- Update one artifact slot of an artifact store. -/
def setArt (f : Task → Option (List String × Nat)) (k : Task)
    (v : Option (List String × Nat)) : Task → Option (List String × Nat) :=
  fun j => if j = k then v else f j

/-- One relation, together with the environment its tasks run against.
`missingStreets` is the relation's missing-streets policy
(`should_check_missing_streets()`, one of "yes"/"no"/"only").
`streetsAttempts`/`housenumbersAttempts` script the Overpass remote for the
relation's two OSM queries.  The five `...Write` fields are the outcomes of
the black-box derivation steps (`write_ref_streets`,
`write_ref_housenumbers`, `write_missing_streets`,
`write_missing_housenumbers` plus its cache regeneration,
`write_additional_streets`): either the content they produce or an error.
`arts` maps each artifact kind to its on-disk `(content, mtime)`, `none`
meaning the file does not exist. -/
structure Rel where
  name : String
  active : Bool
  missingStreets : String
  streetsAttempts : Nat → Attempt
  housenumbersAttempts : Nat → Attempt
  refStreetsWrite : Except Unit (List String)
  refHousenumbersWrite : Except Unit (List String)
  missingStreetsWrite : Except Unit (List String)
  missingHousenumbersWrite : Except Unit (List String)
  additionalStreetsWrite : Except Unit (List String)
  arts : Task → Option (List String × Nat)

/-- Loop body of `update_osm_streets` (cron.rs lines 82-109) for one relation:
inactive relations are not in `get_active_names()`; skip when incremental
(`!update`) and the artifact exists; otherwise run the retry loop, which
may leave a freshly written artifact behind. -/
def update_osm_streets_step (u : Bool) (t : Nat) (r : Rel) : Except Unit Rel :=
  if r.active = false then .ok r
  else if u = false ∧ (r.arts Task.osmStreets).isSome = true then .ok r
  else
    match osmFetchLoop r.streetsAttempts t with
    | .error e => .error e
    | .ok fr =>
      match fr.written with
      | none => .ok r
      | some v => .ok { r with arts := setArt r.arts Task.osmStreets (some v) }

/-- Loop body of `update_osm_housenumbers` (cron.rs lines 135-165). -/
def update_osm_housenumbers_step (u : Bool) (t : Nat) (r : Rel) : Except Unit Rel :=
  if r.active = false then .ok r
  else if u = false ∧ (r.arts Task.osmHousenumbers).isSome = true then .ok r
  else
    match osmFetchLoop r.housenumbersAttempts t with
    | .error e => .error e
    | .ok fr =>
      match fr.written with
      | none => .ok r
      | some v => .ok { r with arts := setArt r.arts Task.osmHousenumbers (some v) }

/-- Loop body of `update_ref_streets` (cron.rs lines 220-234): skip when
incremental and present, skip policy "no", then `write_ref_streets(...)?`
(note the `?`: a failed write escapes the whole function). -/
def update_ref_streets_step (u : Bool) (t : Nat) (r : Rel) : Except Unit Rel :=
  if r.active = false then .ok r
  else if u = false ∧ (r.arts Task.refStreets).isSome = true then .ok r
  else if r.missingStreets = "no" then .ok r
  else
    match r.refStreetsWrite with
    | .error e => .error e
    | .ok content => .ok { r with arts := setArt r.arts Task.refStreets (some (content, t)) }

/-- Loop body of `update_ref_housenumbers` (cron.rs lines 190-209): skip when
incremental and present, skip policy "only"; a failed
`write_ref_housenumbers` is only logged (`if let Err`) and the loop
continues with the next relation. -/
def update_ref_housenumbers_step (u : Bool) (t : Nat) (r : Rel) : Except Unit Rel :=
  if r.active = false then .ok r
  else if u = false ∧ (r.arts Task.refHousenumbers).isSome = true then .ok r
  else if r.missingStreets = "only" then .ok r
  else
    match r.refHousenumbersWrite with
    | .error _ => .ok r
    | .ok content => .ok { r with arts := setArt r.arts Task.refHousenumbers (some (content, t)) }

/-- Loop body of `update_missing_streets` (cron.rs lines 275-288): skip when
incremental and present, skip policy "no", then `write_missing_streets()?`. -/
def update_missing_streets_step (u : Bool) (t : Nat) (r : Rel) : Except Unit Rel :=
  if r.active = false then .ok r
  else if u = false ∧ (r.arts Task.streetsPercent).isSome = true then .ok r
  else if r.missingStreets = "no" then .ok r
  else
    match r.missingStreetsWrite with
    | .error e => .error e
    | .ok content => .ok { r with arts := setArt r.arts Task.streetsPercent (some (content, t)) }

/-- Loop body of `update_missing_housenumbers` (cron.rs lines 246-266): skip
when incremental and present, skip policy "only", then
`write_missing_housenumbers()?` followed by the cache regeneration (all
fallible through `?`, folded into one outcome here). -/
def update_missing_housenumbers_step (u : Bool) (t : Nat) (r : Rel) : Except Unit Rel :=
  if r.active = false then .ok r
  else if u = false ∧ (r.arts Task.housenumbersPercent).isSome = true then .ok r
  else if r.missingStreets = "only" then .ok r
  else
    match r.missingHousenumbersWrite with
    | .error e => .error e
    | .ok content => .ok { r with arts := setArt r.arts Task.housenumbersPercent (some (content, t)) }

/-- Loop body of `update_additional_streets` (cron.rs lines 297-311): skip
when incremental and present, skip policy "no", then `write_additional_streets()?`. -/
def update_additional_streets_step (u : Bool) (t : Nat) (r : Rel) : Except Unit Rel :=
  if r.active = false then .ok r
  else if u = false ∧ (r.arts Task.additionalStreetsCount).isSome = true then .ok r
  else if r.missingStreets = "no" then .ok r
  else
    match r.additionalStreetsWrite with
    | .error e => .error e
    | .ok content =>
      .ok { r with arts := setArt r.arts Task.additionalStreetsCount (some (content, t)) }

/-- The `for relation_name in relations.get_active_names()?` driver every
update function shares: process relations in registry order; an `Err` escaping
one iteration aborts the whole function (later relations untouched), which the
`Bool` component records (`true` = the function returned `Ok`). -/
def runTaskList (step : Rel → Except Unit Rel) : List Rel → List Rel × Bool
  | [] => ([], true)
  | r :: rest =>
    match step r with
    | .error _ => (r :: rest, false)
    | .ok x =>
      let p := runTaskList step rest
      (x :: p.1, p.2)

/-- `update_osm_streets` over the whole registry. -/
def update_osm_streets (u : Bool) (t : Nat) (rels : List Rel) : List Rel × Bool :=
  runTaskList (update_osm_streets_step u t) rels

/-- `update_osm_housenumbers` over the whole registry. -/
def update_osm_housenumbers (u : Bool) (t : Nat) (rels : List Rel) : List Rel × Bool :=
  runTaskList (update_osm_housenumbers_step u t) rels

/-- `update_ref_streets` over the whole registry. -/
def update_ref_streets (u : Bool) (t : Nat) (rels : List Rel) : List Rel × Bool :=
  runTaskList (update_ref_streets_step u t) rels

/-- `update_ref_housenumbers` over the whole registry. -/
def update_ref_housenumbers (u : Bool) (t : Nat) (rels : List Rel) : List Rel × Bool :=
  runTaskList (update_ref_housenumbers_step u t) rels

/-- `update_missing_streets` over the whole registry. -/
def update_missing_streets (u : Bool) (t : Nat) (rels : List Rel) : List Rel × Bool :=
  runTaskList (update_missing_streets_step u t) rels

/-- `update_missing_housenumbers` over the whole registry. -/
def update_missing_housenumbers (u : Bool) (t : Nat) (rels : List Rel) : List Rel × Bool :=
  runTaskList (update_missing_housenumbers_step u t) rels

/-- `update_additional_streets` over the whole registry. -/
def update_additional_streets (u : Bool) (t : Nat) (rels : List Rel) : List Rel × Bool :=
  runTaskList (update_additional_streets_step u t) rels

/-- Sequencing of two update functions through `?` in `our_main`: a failed
predecessor short-circuits the successor. -/
def taskSeq (prev : List Rel × Bool) (next : List Rel → List Rel × Bool) : List Rel × Bool :=
  if prev.2 then next prev.1 else prev

/-- The relations phase of `our_main` (cron.rs lines 562-570): the seven
update functions in source order, each one chained through `?`. -/
def relationsPhase (u : Bool) (t : Nat) (rels : List Rel) : List Rel × Bool :=
  taskSeq (taskSeq (taskSeq (taskSeq (taskSeq (taskSeq
    (update_osm_streets u t rels)
    (update_osm_housenumbers u t))
    (update_ref_streets u t))
    (update_ref_housenumbers u t))
    (update_missing_streets u t))
    (update_missing_housenumbers u t))
    (update_additional_streets u t)

/-- Outcome of a Rust computation that can also abort by panicking (index out
of range), distinguished from a clean `Err` return which carries whatever
partial effects already happened. -/
inductive Run (α : Type) where
  | panicked : Run α
  | errored (sofar : α) : Run α
  | ok (val : α) : Run α
  deriving DecidableEq

/-- Stable insertion into a sorted list; `insertLe`/`sortByLe` model the
stable `sort_by_key` calls of the source (the key functions arrive as the
`le` comparison). -/
def insertLe {α : Type} (le : α → α → Bool) (x : α) : List α → List α
  | [] => [x]
  | y :: ys => if le x y then x :: y :: ys else y :: insertLe le x ys

/-- Stable sort by a boolean comparison (model of `Vec::sort_by_key`). -/
def sortByLe {α : Type} (le : α → α → Bool) : List α → List α
  | [] => []
  | x :: xs => insertLe le x (sortByLe le xs)

/-- `Vec::dedup`: collapse runs of consecutive equal elements. -/
def dedupConsec {α : Type} [DecidableEq α] : List α → List α
  | [] => []
  | [x] => [x]
  | x :: y :: rest => if x = y then dedupConsec (y :: rest) else x :: dedupConsec (y :: rest)

/-- `cells[i..j].join("\t")`. -/
def tabJoin (cells : List String) : String :=
  String.intercalate "\t" cells

/-- Character-level worker for `splitTab`; follows Rust `str::split` semantics
(the empty string yields one empty field, a trailing separator yields a
trailing empty field). -/
def splitTabChars : List Char → List String
  | [] => [""]
  | c :: rest =>
    match splitTabChars rest with
    | [] => [""]
    | hd :: tl => if c = '\t' then "" :: hd :: tl else String.mk (c :: hd.data) :: tl

/-- Rust `line.split('\t').collect::<Vec<_>>()`. -/
def splitTab (s : String) : List String :=
  splitTabChars s.data

/-- Rust `str::starts_with` on string literals. -/
def starts_with (s pre : String) : Bool :=
  List.isPrefixOf pre.data s.data

/-- `HashMap<String, HashSet<String>>::entry(k).or_insert_with(HashSet::new)`
followed by inserting `v`, determinized as an insertion-ordered association
list (the claims do not depend on `HashMap` iteration order). -/
def upsert (k v : String) : List (String × Finset String) → List (String × Finset String)
  | [] => [(k, {v})]
  | (k2, s) :: rest => if k = k2 then (k2, insert v s) :: rest else (k2, s) :: upsert k v rest

/-- The line loop of `update_stats_count` (cron.rs lines 365-384).  State:
the `first` header flag, the distinct-housenumber set, the per-city
(street, housenumber) sets.  A line starting with `<?xml` breaks out of the
loop; the header line is skipped; any other line is split on tabs and
indexed as `cells[0..4]`, `cells[0]`, `cells[1]`, `cells[2..4]` — which
panics (`none`) when fewer than four cells exist.  `ck` is
`util::get_city_key` applied to the loaded valid-settlements table (the
`util` module is outside the specified core, so it is a parameter). -/
def stats_count_loop (ck : String → String → String) :
    List String → Bool → Finset String → List (String × Finset String) →
    Option (Finset String × List (String × Finset String))
  | [], _, house_numbers, cities => some (house_numbers, cities)
  | line :: rest, first, house_numbers, cities =>
    if starts_with line "<?xml" then some (house_numbers, cities)
    else if first then stats_count_loop ck rest false house_numbers cities
    else
      let cells := splitTab line
      if 4 ≤ cells.length then
        stats_count_loop ck rest false
          (insert (tabJoin (cells.take 4)) house_numbers)
          (upsert (ck (cells.getD 0 "") (cells.getD 1 ""))
            (tabJoin ((cells.drop 2).take 2)) cities)
      else none

/-- What one call of `update_stats_count` does to today's two stat files. -/
inductive StatsCountOutcome where
  | noCsv : StatsCountOutcome
  | panicked : StatsCountOutcome
  | wrote (count : Nat) (citycount : List (String × Nat)) : StatsCountOutcome
  deriving DecidableEq

/-- `write_city_count_path` (cron.rs lines 330-347): sort the city entries by
`util::get_sort_key` (parameter `sk`), `dedup`, emit `key\tcount` lines. -/
def write_city_count_path (sk : String → String)
    (cities : List (String × Finset String)) : List (String × Nat) :=
  (dedupConsec (sortByLe (fun a b => sk a.1 ≤ sk b.1) cities)).map fun kv => (kv.1, kv.2.card)

/-- `update_stats_count` (cron.rs lines 350-387) on today's extract, given as
its list of lines (`none`: the `.csv` does not exist and the function
returns without writing).  On normal completion it writes `<today>.count`
(the distinct-housenumber cardinality) and `<today>.citycount`. -/
def update_stats_count (ck : String → String → String) (sk : String → String)
    (csv : Option (List String)) : StatsCountOutcome :=
  match csv with
  | none => .noCsv
  | some lines =>
    match stats_count_loop ck lines true ∅ [] with
    | none => .panicked
    | some (house_numbers, cities) =>
      .wrote house_numbers.card (write_city_count_path sk cities)

/-- The two paths `update_stats_count` writes (cron.rs lines 356-357): both
are derived from `today`, so aggregates of other days are never touched. -/
def update_stats_count_paths (statedir today : String) : List String :=
  [statedir ++ "/" ++ today ++ ".count", statedir ++ "/" ++ today ++ ".citycount"]

/-- The deduplication key `cells[0..4].join("\t")` of `update_stats_count`:
the first four tab-separated fields; the trailing editor column is dropped. -/
def dedupKey (line : String) : String :=
  tabJoin ((splitTab line).take 4)

/-- `cells[cells.len() - 1]`: the last tab-separated cell of a line
(`splitTab` never returns an empty list, so the default is unreachable). -/
def last_cell (line : String) : String :=
  (splitTab line).getLastD ""

/-- `*users.entry(user).or_insert(0) += 1`, determinized as an
insertion-ordered association list. -/
def bumpUser : List (String × Nat) → String → List (String × Nat)
  | [], u => [(u, 1)]
  | (k, n) :: rest, u =>
    if k = u then (k, n + 1) :: rest else (k, n) :: bumpUser rest u

/-- The tallying loop of `update_stats_topusers` (cron.rs lines 411-418):
every line of the extract — the header included, there is no `first` skip
in this function — contributes one occurrence to its last column's count. -/
def tallyUsers (lines : List String) : List (String × Nat) :=
  lines.foldl (fun acc line => bumpUser acc (last_cell line)) []

/-- Files written by one `update_stats_topusers` call. -/
structure TopusersResult where
  topusers : List (Nat × String)
  usercount : Nat
  deriving DecidableEq

/-- `update_stats_topusers` (cron.rs lines 398-437): tally per last column,
sort descending by count (`sort_by_key(Reverse)`), `dedup`, truncate to
`min(20, len)`, emit `count user` lines; separately write the total number
of distinct editors (the untruncated map's size). -/
def update_stats_topusers (csv : Option (List String)) : Option TopusersResult :=
  match csv with
  | none => none
  | some lines =>
    let users := tallyUsers lines
    let sorted := sortByLe (fun a b => b.2 ≤ a.2) users
    let deduped := dedupConsec sorted
    let top := deduped.take (min 20 deduped.length)
    some ⟨top.map (fun u => (u.2, u.1)), users.length⟩

/-- Digit-accumulating worker for `parse_i32`; `none` on a non-digit or when
no digit was seen at all. -/
def parseDigits : List Char → Option Nat → Option Nat
  | [], acc => acc
  | c :: rest, acc =>
    if '0' ≤ c ∧ c ≤ '9' then
      parseDigits rest (some (acc.getD 0 * 10 + (c.toNat - 48)))
    else none

/-- Signed-magnitude worker for `parse_i32`, applying Rust's i32 overflow
check. -/
def parse_i32_core (cs : List Char) (neg : Bool) : Option Int :=
  match parseDigits cs none with
  | none => none
  | some n =>
    let v : Int := if neg then -(n : Int) else (n : Int)
    if -2147483648 ≤ v ∧ v ≤ 2147483647 then some v else none

/-- `row[1].parse::<i32>()`: optional sign, one or more decimal digits,
nothing else, within the i32 range. -/
def parse_i32 (s : String) : Option Int :=
  match s.data with
  | '-' :: rest => parse_i32_core rest true
  | '+' :: rest => parse_i32_core rest false
  | cs => parse_i32_core cs false

/-- The summing loop of `update_stats_refcount` over the non-header rows of
the reference city-count table: `row[1]` panics when the row has fewer than
two cells, a parse failure escapes through `?`. -/
def refcount_loop : List (List String) → Int → Run Int
  | [], count => .ok count
  | row :: rest, count =>
    match row with
    | _ :: v :: _ =>
      match parse_i32 v with
      | none => .errored count
      | some n => refcount_loop rest (count + n)
    | _ => .panicked

/-- `update_stats_refcount` (cron.rs lines 448-474): sum column 2 of the
reference city-count table, skipping its header row, and write the total to
`ref.count`. -/
def update_stats_refcount (rows : List (List String)) : Run Int :=
  match rows with
  | [] => .ok 0
  | _ :: rest => refcount_loop rest 0

/-- One directory entry of `workdir/stats` as the retention scan sees it:
name, extension as reported by `Path::extension()`, seconds since last
modification, and whether it is a regular file. -/
structure StatFile where
  name : String
  ext : Option String
  ageSecs : Nat
  isFile : Bool
  deriving DecidableEq

/-- The retention scan of `update_stats` (cron.rs lines 517-532): keep
non-`csv` entries; remove `csv` files whose age is at least `24*3600*7`
seconds; `path.extension().unwrap()` panics on an entry without extension. -/
def remove_old_csv : List StatFile → Option (List StatFile)
  | [] => some []
  | f :: rest =>
    match f.ext with
    | none => none
    | some e =>
      if e ≠ "csv" then (remove_old_csv rest).map (f :: ·)
      else if 24 * 3600 * 7 ≤ f.ageSecs ∧ f.isFile = true then remove_old_csv rest
      else (remove_old_csv rest).map (f :: ·)

/-- Environment of one `update_stats` run: the scripted Overpass remote, the
reference city-count rows, today's pre-existing extract (if any), the stats
directory listing as the retention scan will encounter it, and the two
`util` lookups `update_stats_count` needs. -/
structure StatsIn where
  attempts : Nat → Attempt
  refRows : List (List String)
  csv0 : Option (List String)
  files : List StatFile
  cityKey : String → String → String
  sortKey : String → String

/-- Observable effects of one `update_stats` run: today's extract after the
optional fetch, the five per-day/static files written by this run (`none` =
not written by this run), the retained directory listing, and whether
`stats.json` was regenerated. -/
structure StatsOut where
  csv : Option (List String)
  countFile : Option Nat
  cityCountFile : Option (List (String × Nat))
  topusersFile : Option (List (Nat × String))
  usercountFile : Option Nat
  refCountFile : Option Int
  files : List StatFile
  jsonGenerated : Bool
  deriving DecidableEq

/-- The post-fetch tail of `update_stats` (cron.rs lines 512-536):
`update_stats_count`, `update_stats_topusers`, `update_stats_refcount`, the
retention scan, then regenerating `stats.json` (`stats::generate_json` lives
outside the specified core and is modelled as always succeeding).  `out1`
carries today's extract in its `csv` field and the directory listing in its
`files` field. -/
def update_stats_aggregate (sin : StatsIn) (out1 : StatsOut) : Run StatsOut :=
  match update_stats_count sin.cityKey sin.sortKey out1.csv with
  | .panicked => .panicked
  | co =>
    let out2 :=
      match co with
      | .wrote c cc => { out1 with countFile := some c, cityCountFile := some cc }
      | _ => out1
    let out3 :=
      match update_stats_topusers out1.csv with
      | none => out2
      | some res =>
        { out2 with topusersFile := some res.topusers, usercountFile := some res.usercount }
    match update_stats_refcount sin.refRows with
    | .panicked => .panicked
    | .errored _ => .errored out3
    | .ok n =>
      let out4 := { out3 with refCountFile := some n }
      match remove_old_csv out4.files with
      | none => .panicked
      | some kept => .ok { out4 with files := kept, jsonGenerated := true }

/-- `update_stats` (cron.rs lines 477-541): optionally fetch the
whole-country extract through the retry loop (a write error escaping via
`?`), then aggregate via `update_stats_aggregate`. -/
def update_stats (overpass : Bool) (t : Nat) (sin : StatsIn) : Run StatsOut :=
  let out0 : StatsOut :=
    ⟨sin.csv0, none, none, none, none, none, sin.files, false⟩
  let fetched : Except Unit (Option (List String)) :=
    if overpass then
      match statsFetchLoop sin.attempts t with
      | .error _ => .error ()
      | .ok fr =>
        match fr.written with
        | some w => .ok (some w.1)
        | none => .ok sin.csv0
    else .ok sin.csv0
  match fetched with
  | .error _ => .errored out0
  | .ok csv => update_stats_aggregate sin { out0 with csv := csv }

/-- Combined observable state of one `our_main` run: what the stats phase
wrote (`none` when the phase did not run) and the relations registry. -/
structure MainOut where
  statsWrites : Option StatsOut
  rels : List Rel

/-- `our_main` (cron.rs lines 552-589): stats phase when mode is `all` or
`stats` (its error escaping through `?` before the relations phase),
relations phase when mode is `all` or `relations` (the seven update
functions chained through `?`), then the injected end-of-run test error
(`ctx.get_unit().make_error()`). -/
def our_main (mode : String) (u overpass : Bool) (sin : StatsIn) (t : Nat)
    (rels : List Rel) (injected : String) : Run MainOut :=
  let statsRes : Run (Option StatsOut) :=
    if mode = "all" ∨ mode = "stats" then
      match update_stats overpass t sin with
      | .panicked => .panicked
      | .errored so => .errored (some so)
      | .ok so => .ok (some so)
    else .ok none
  match statsRes with
  | .panicked => .panicked
  | .errored so => .errored ⟨so, rels⟩
  | .ok so =>
    let relRes : List Rel × Bool :=
      if mode = "all" ∨ mode = "relations" then relationsPhase u t rels else (rels, true)
    if relRes.2 = false then .errored ⟨so, relRes.1⟩
    else if injected ≠ "" then .errored ⟨so, relRes.1⟩
    else .ok ⟨so, relRes.1⟩

/-- The failure outcomes the OSM retry loops keep retrying on: an HTTP error
from `overpass_query`, or a zero-length persisted write. -/
def osmAttemptFails (a : Attempt) : Prop :=
  a = .httpError ∨ a = .fetched []

/-- "Some update function's loop body sent `r` to `x`" — one step of the
relations phase acting on one relation. -/
def anyStepRel (u : Bool) (t : Nat) (r x : Rel) : Prop :=
  update_osm_streets_step u t r = .ok x ∨ update_osm_housenumbers_step u t r = .ok x ∨
    update_ref_streets_step u t r = .ok x ∨ update_ref_housenumbers_step u t r = .ok x ∨
    update_missing_streets_step u t r = .ok x ∨
    update_missing_housenumbers_step u t r = .ok x ∨
    update_additional_streets_step u t r = .ok x

/-- A relation's whole trajectory through one relations-phase run. -/
def phaseRel (u : Bool) (t : Nat) : Rel → Rel → Prop :=
  Relation.ReflTransGen (anyStepRel u t)

/-- Test fixture for `util::get_city_key`: the raw city name. -/
def ckFix : String → String → String := fun _postcode city => city

/-- Test fixture for `util::get_sort_key`: the identity collation. -/
def skFix : String → String := id

/-- An active relation with default policy, a cooperative remote and
successful derivation steps, and no artifacts yet. -/
def relFix : Rel :=
  ⟨"gazdagret", true, "yes", fun _ => .fetched ["s"], fun _ => .fetched ["h"],
    .ok ["rs"], .ok ["rh"], .ok ["ms"], .ok ["mh"], .ok ["as"], fun _ => none⟩

/-- Like `relFix` but with missing-streets policy "only". -/
def relOnlyFix : Rel :=
  ⟨"ujbuda", true, "only", fun _ => .fetched ["s"], fun _ => .fetched ["h"],
    .ok ["rs"], .ok ["rh"], .ok ["ms"], .ok ["mh"], .ok ["as"], fun _ => none⟩

/-- Like `relFix` but with missing-streets policy "no". -/
def relNoFix : Rel :=
  ⟨"gellerthegy", true, "no", fun _ => .fetched ["s"], fun _ => .fetched ["h"],
    .ok ["rs"], .ok ["rh"], .ok ["ms"], .ok ["mh"], .ok ["as"], fun _ => none⟩

/-- Like `relFix` but facing a remote that always fails with an HTTP error. -/
def relHttpFix : Rel :=
  ⟨"budafok", true, "yes", fun _ => .httpError, fun _ => .httpError,
    .ok ["rs"], .ok ["rh"], .ok ["ms"], .ok ["mh"], .ok ["as"], fun _ => none⟩

/-- Like `relFix` but with every reference/derivation write failing. -/
def relWriteErrFix : Rel :=
  ⟨"sashegy", true, "yes", fun _ => .fetched ["s"], fun _ => .fetched ["h"],
    .error (), .error (), .error (), .error (), .error (), fun _ => none⟩

/-- The empty partial effect of a stats run that failed before writing. -/
def statsOutErrFix : StatsOut := ⟨none, none, none, none, none, none, [], false⟩

/-- A stats environment whose very first Overpass attempt hits a write error. -/
def sinWriteErrFix : StatsIn := ⟨fun _ => .writeError, [], none, [], ckFix, skFix⟩

/-- An extract older than 7×24h = 604800 seconds. -/
def oldCsvFix : StatFile := ⟨"2020-01-01.csv", some "csv", 700000, true⟩

/-- An extract six days (518400 seconds) old. -/
def youngCsvFix : StatFile := ⟨"2020-01-07.csv", some "csv", 518400, true⟩

/-- A stats environment with an unreachable remote and one old plus one
six-day-old extract on disk. -/
def sinRetFix : StatsIn := ⟨fun _ => .httpError, [], none, [oldCsvFix, youngCsvFix], ckFix, skFix⟩

/-- What `update_stats` does to `sinRetFix`: no extract, no per-day files,
`ref.count` 0, the old extract pruned, `stats.json` regenerated. -/
def statsOutRetFix : StatsOut := ⟨none, none, none, none, none, some 0, [youngCsvFix], true⟩

/-- First-match lookup in an association list, 0 when absent (the reading a
`HashMap<String, u64>` provides). -/
def lookupCount : List (String × Nat) → String → Nat
  | [], _ => 0
  | (k, n) :: rest, u => if k = u then n else lookupCount rest u

/-- A three-line extract: header plus two rows by the same editor. -/
def linesFix : List String :=
  ["p\tc\ts\th\tu", "a\tb\tc\td\talice", "x\ty\tz\tw\talice"]

/-- The topusers outcome on `linesFix`: the header's last column `u` is
counted as an editor alongside `alice`. -/
def topusersFix : TopusersResult := ⟨[(2, "alice"), (1, "u")], 2⟩

/-- After an incremental (`update = false`) run, a relation re-visited by
`update_osm_streets` is left unchanged: it is inactive, or its artifact now
exists, or every attempt its remote will offer is an HTTP error (so the loop
wrote nothing and will write nothing again). -/
def stableOsmStreets (r : Rel) : Prop :=
  r.active = false ∨ (r.arts Task.osmStreets).isSome = true ∨
    ∀ i, i < 20 → r.streetsAttempts i = .httpError

/-- `stableOsmStreets` for `update_osm_housenumbers`. -/
def stableOsmHousenumbers (r : Rel) : Prop :=
  r.active = false ∨ (r.arts Task.osmHousenumbers).isSome = true ∨
    ∀ i, i < 20 → r.housenumbersAttempts i = .httpError

/-- Re-visiting condition for `update_ref_streets` with `update = false`. -/
def stableRefStreets (r : Rel) : Prop :=
  r.active = false ∨ (r.arts Task.refStreets).isSome = true ∨ r.missingStreets = "no"

/-- Re-visiting condition for `update_ref_housenumbers` with `update = false`
(a failing reference write is logged and skipped, hence also stable). -/
def stableRefHousenumbers (r : Rel) : Prop :=
  r.active = false ∨ (r.arts Task.refHousenumbers).isSome = true ∨
    r.missingStreets = "only" ∨ r.refHousenumbersWrite = .error ()

/-- Re-visiting condition for `update_missing_streets` with `update = false`. -/
def stableStreetsPercent (r : Rel) : Prop :=
  r.active = false ∨ (r.arts Task.streetsPercent).isSome = true ∨ r.missingStreets = "no"

/-- Re-visiting condition for `update_missing_housenumbers` with `update = false`. -/
def stableHousenumbersPercent (r : Rel) : Prop :=
  r.active = false ∨ (r.arts Task.housenumbersPercent).isSome = true ∨ r.missingStreets = "only"

/-- Re-visiting condition for `update_additional_streets` with `update = false`. -/
def stableAdditionalStreets (r : Rel) : Prop :=
  r.active = false ∨ (r.arts Task.additionalStreetsCount).isSome = true ∨ r.missingStreets = "no"

theorem osmFetchLoopAux_fail (a : Nat → Attempt) (t : Nat) :
    ∀ fuel retry written, retry + fuel = 20 →
      (∀ i, retry ≤ i → i < 20 → osmAttemptFails (a i)) →
      ∃ w, osmFetchLoopAux a t retry fuel written = .ok ⟨w, false, 20⟩ := by
  intro fuel
  induction fuel with
  | zero =>
    intro retry written hinv _
    have h20 : retry = 20 := by omega
    subst h20
    exact ⟨written, rfl⟩
  | succ fuel ih =>
    intro retry written hinv hfail
    have hsr : should_retry retry = true := by
      simp only [should_retry, decide_eq_true_eq]
      omega
    have hf := hfail retry le_rfl (by omega)
    rcases hf with hf | hf
    · simpa [osmFetchLoopAux, hsr, hf] using
        ih (retry + 1) written (by omega) (fun i h1 h2 => hfail i (by omega) h2)
    · simpa [osmFetchLoopAux, hsr, hf] using
        ih (retry + 1) (some ([], t)) (by omega) (fun i h1 h2 => hfail i (by omega) h2)

theorem osmFetchLoopAux_success (a : Nat → Attempt) (t : Nat) :
    ∀ fuel retry written j p, retry + fuel = 20 → retry ≤ j → j < 20 →
      (∀ i, retry ≤ i → i < j → osmAttemptFails (a i)) →
      a j = .fetched p → p.length ≠ 0 →
      osmFetchLoopAux a t retry fuel written = .ok ⟨some (p, t), true, j + 1⟩ := by
  intro fuel
  induction fuel with
  | zero =>
    intro retry written j p hinv hrj hj _ _ _
    omega
  | succ fuel ih =>
    intro retry written j p hinv hrj hj hfail hj2 hp
    have hsr : should_retry retry = true := by
      simp only [should_retry, decide_eq_true_eq]
      omega
    rcases Nat.eq_or_lt_of_le hrj with heq | hlt
    · subst heq
      simp [osmFetchLoopAux, hsr, hj2, hp]
    · have hf := hfail retry le_rfl hlt
      rcases hf with hf | hf
      · simpa [osmFetchLoopAux, hsr, hf] using
          ih (retry + 1) written j p (by omega) (by omega) hj
            (fun i h1 h2 => hfail i (by omega) h2) hj2 hp
      · simpa [osmFetchLoopAux, hsr, hf] using
          ih (retry + 1) (some ([], t)) j p (by omega) (by omega) hj
            (fun i h1 h2 => hfail i (by omega) h2) hj2 hp

theorem osmFetchLoopAux_allHttp (a : Nat → Attempt) (t : Nat) :
    ∀ fuel retry written, retry + fuel = 20 →
      (∀ i, retry ≤ i → i < 20 → a i = .httpError) →
      osmFetchLoopAux a t retry fuel written = .ok ⟨written, false, 20⟩ := by
  intro fuel
  induction fuel with
  | zero =>
    intro retry written hinv _
    have h20 : retry = 20 := by omega
    subst h20
    rfl
  | succ fuel ih =>
    intro retry written hinv hhttp
    have hsr : should_retry retry = true := by
      simp only [should_retry, decide_eq_true_eq]
      omega
    have hf := hhttp retry le_rfl (by omega)
    simpa [osmFetchLoopAux, hsr, hf] using
      ih (retry + 1) written (by omega) (fun i h1 h2 => hhttp i (by omega) h2)

theorem osmFetchLoopAux_written_isSome (a : Nat → Attempt) (t : Nat) :
    ∀ fuel retry w res, osmFetchLoopAux a t retry fuel (some w) = .ok res →
      res.written.isSome = true := by
  intro fuel
  induction fuel with
  | zero =>
    intro retry w res h
    cases h
    rfl
  | succ fuel ih =>
    intro retry w res h
    by_cases hsr : should_retry retry = true
    · simp only [osmFetchLoopAux, hsr, if_true] at h
      cases ha : a retry with
      | httpError =>
        rw [ha] at h
        exact ih _ _ _ h
      | writeError =>
        rw [ha] at h
        cases h
      | fetched p =>
        rw [ha] at h
        by_cases hp : p.length = 0
        · simp only [hp, if_true] at h
          exact ih _ _ _ h
        · simp only [hp, if_false] at h
          cases h
          rfl
    · simp only [osmFetchLoopAux, hsr, if_false] at h
      cases h
      rfl

theorem osmFetchLoopAux_none_http (a : Nat → Attempt) (t : Nat) :
    ∀ fuel retry res, retry + fuel = 20 →
      osmFetchLoopAux a t retry fuel none = .ok res → res.written = none →
      ∀ i, retry ≤ i → i < 20 → a i = .httpError := by
  intro fuel
  induction fuel with
  | zero =>
    intro retry res hinv _ _ i h1 h2
    omega
  | succ fuel ih =>
    intro retry res hinv h hres i h1 h2
    have hsr : should_retry retry = true := by
      simp only [should_retry, decide_eq_true_eq]
      omega
    simp only [osmFetchLoopAux, hsr, if_true] at h
    cases ha : a retry with
    | httpError =>
      rw [ha] at h
      rcases Nat.eq_or_lt_of_le h1 with heq | hlt
      · rw [← heq]
        exact ha
      · exact ih (retry + 1) res (by omega) h hres i hlt h2
    | writeError =>
      rw [ha] at h
      cases h
    | fetched p =>
      rw [ha] at h
      by_cases hp : p.length = 0
      · simp only [hp, if_true] at h
        have := osmFetchLoopAux_written_isSome a t fuel (retry + 1) (p, t) res h
        rw [hres] at this
        cases this
      · simp only [hp, if_false] at h
        cases h
        cases hres

theorem statsFetchLoopAux_allHttp (a : Nat → Attempt) (t : Nat) :
    ∀ fuel retry written, retry + fuel = 20 →
      (∀ i, retry ≤ i → i < 20 → a i = .httpError) →
      statsFetchLoopAux a t retry fuel written = .ok ⟨written, false, 20⟩ := by
  intro fuel
  induction fuel with
  | zero =>
    intro retry written hinv _
    have h20 : retry = 20 := by omega
    subst h20
    rfl
  | succ fuel ih =>
    intro retry written hinv hhttp
    have hsr : should_retry retry = true := by
      simp only [should_retry, decide_eq_true_eq]
      omega
    have hf := hhttp retry le_rfl (by omega)
    simpa [statsFetchLoopAux, hsr, hf] using
      ih (retry + 1) written (by omega) (fun i h1 h2 => hhttp i (by omega) h2)

theorem runTaskList_flag (step : Rel → Except Unit Rel) :
    ∀ rels : List Rel, (∀ r ∈ rels, ∃ x, step r = .ok x) →
      (runTaskList step rels).2 = true := by
  intro rels
  induction rels with
  | nil => intro _; rfl
  | cons r rest ih =>
    intro h
    obtain ⟨x, hx⟩ := h r (List.mem_cons_self r rest)
    simp only [runTaskList, hx]
    exact ih fun r' hr' => h r' (List.mem_cons_of_mem r hr')

theorem runTaskList_id (step : Rel → Except Unit Rel) :
    ∀ rels : List Rel, (∀ r ∈ rels, step r = .ok r) →
      runTaskList step rels = (rels, true) := by
  intro rels
  induction rels with
  | nil => intro _; rfl
  | cons r rest ih =>
    intro h
    have hr := h r (List.mem_cons_self r rest)
    have hrest := ih fun r' hr' => h r' (List.mem_cons_of_mem r hr')
    simp [runTaskList, hr, hrest]

theorem runTaskList_establish (step : Rel → Except Unit Rel) (P : Rel → Prop)
    (hP : ∀ r x, step r = .ok x → P x) :
    ∀ rels : List Rel, (runTaskList step rels).2 = true →
      ∀ x ∈ (runTaskList step rels).1, P x := by
  intro rels
  induction rels with
  | nil => intro _ x hx; cases hx
  | cons r rest ih =>
    intro hflag x hx
    cases hs : step r with
    | error e =>
      rw [show runTaskList step (r :: rest) = (r :: rest, false) by
        simp [runTaskList, hs]] at hflag
      cases hflag
    | ok y =>
      simp only [runTaskList, hs] at hflag hx
      rcases List.mem_cons.mp hx with rfl | hx
      · exact hP r x hs
      · exact ih hflag x hx

theorem runTaskList_preserve (step : Rel → Except Unit Rel) (P : Rel → Prop)
    (hP : ∀ r x, step r = .ok x → P r → P x) :
    ∀ rels : List Rel, (runTaskList step rels).2 = true → (∀ r ∈ rels, P r) →
      ∀ x ∈ (runTaskList step rels).1, P x := by
  intro rels
  induction rels with
  | nil => intro _ _ x hx; cases hx
  | cons r rest ih =>
    intro hflag hall x hx
    cases hs : step r with
    | error e =>
      rw [show runTaskList step (r :: rest) = (r :: rest, false) by
        simp [runTaskList, hs]] at hflag
      cases hflag
    | ok y =>
      simp only [runTaskList, hs] at hflag hx
      rcases List.mem_cons.mp hx with rfl | hx
      · exact hP r x hs (hall r (List.mem_cons_self r rest))
      · exact ih hflag (fun r' hr' => hall r' (List.mem_cons_of_mem r hr')) x hx

theorem runTaskList_forall2 (step : Rel → Except Unit Rel) :
    ∀ rels : List Rel,
      List.Forall₂ (fun r x => step r = .ok x ∨ x = r) rels (runTaskList step rels).1 := by
  intro rels
  induction rels with
  | nil => exact List.Forall₂.nil
  | cons r rest ih =>
    cases hs : step r with
    | error e =>
      have : runTaskList step (r :: rest) = (r :: rest, false) := by simp [runTaskList, hs]
      rw [this]
      exact List.Forall₂.cons (Or.inr rfl)
        (List.forall₂_same.mpr fun a _ => Or.inr rfl)
    | ok y =>
      simp only [runTaskList, hs]
      exact List.Forall₂.cons (Or.inl hs) ih

theorem taskSeq_ok (p : List Rel × Bool) (f : List Rel → List Rel × Bool) :
    (taskSeq p f).2 = true → p.2 = true ∧ taskSeq p f = f p.1 := by
  intro h
  by_cases hp : p.2 = true
  · exact ⟨hp, by simp [taskSeq, hp]⟩
  · rw [show taskSeq p f = p by simp [taskSeq, hp]] at h
    exact absurd h hp

theorem update_osm_streets_step_frame (u : Bool) (t : Nat) (r x : Rel)
    (h : update_osm_streets_step u t r = .ok x) :
    x = r ∨ ∃ v, x = { r with arts := setArt r.arts Task.osmStreets v } := by
  unfold update_osm_streets_step at h
  split_ifs at h
  · cases h; exact Or.inl rfl
  · cases h; exact Or.inl rfl
  · split at h
    · cases h
    · split at h
      · cases h; exact Or.inl rfl
      · cases h; exact Or.inr ⟨some _, rfl⟩

theorem update_osm_housenumbers_step_frame (u : Bool) (t : Nat) (r x : Rel)
    (h : update_osm_housenumbers_step u t r = .ok x) :
    x = r ∨ ∃ v, x = { r with arts := setArt r.arts Task.osmHousenumbers v } := by
  unfold update_osm_housenumbers_step at h
  split_ifs at h
  · cases h; exact Or.inl rfl
  · cases h; exact Or.inl rfl
  · split at h
    · cases h
    · split at h
      · cases h; exact Or.inl rfl
      · cases h; exact Or.inr ⟨some _, rfl⟩

theorem update_ref_streets_step_frame (u : Bool) (t : Nat) (r x : Rel)
    (h : update_ref_streets_step u t r = .ok x) :
    x = r ∨ ∃ v, x = { r with arts := setArt r.arts Task.refStreets v } := by
  unfold update_ref_streets_step at h
  split_ifs at h
  · cases h; exact Or.inl rfl
  · cases h; exact Or.inl rfl
  · cases h; exact Or.inl rfl
  · split at h
    · cases h
    · cases h; exact Or.inr ⟨some (_, t), rfl⟩

theorem update_ref_housenumbers_step_frame (u : Bool) (t : Nat) (r x : Rel)
    (h : update_ref_housenumbers_step u t r = .ok x) :
    x = r ∨ ∃ v, x = { r with arts := setArt r.arts Task.refHousenumbers v } := by
  unfold update_ref_housenumbers_step at h
  split_ifs at h
  · cases h; exact Or.inl rfl
  · cases h; exact Or.inl rfl
  · cases h; exact Or.inl rfl
  · split at h
    · cases h; exact Or.inl rfl
    · cases h; exact Or.inr ⟨some (_, t), rfl⟩

theorem update_missing_streets_step_frame (u : Bool) (t : Nat) (r x : Rel)
    (h : update_missing_streets_step u t r = .ok x) :
    x = r ∨ ∃ v, x = { r with arts := setArt r.arts Task.streetsPercent v } := by
  unfold update_missing_streets_step at h
  split_ifs at h
  · cases h; exact Or.inl rfl
  · cases h; exact Or.inl rfl
  · cases h; exact Or.inl rfl
  · split at h
    · cases h
    · cases h; exact Or.inr ⟨some (_, t), rfl⟩

theorem update_missing_housenumbers_step_frame (u : Bool) (t : Nat) (r x : Rel)
    (h : update_missing_housenumbers_step u t r = .ok x) :
    x = r ∨ ∃ v, x = { r with arts := setArt r.arts Task.housenumbersPercent v } := by
  unfold update_missing_housenumbers_step at h
  split_ifs at h
  · cases h; exact Or.inl rfl
  · cases h; exact Or.inl rfl
  · cases h; exact Or.inl rfl
  · split at h
    · cases h
    · cases h; exact Or.inr ⟨some (_, t), rfl⟩

theorem update_additional_streets_step_frame (u : Bool) (t : Nat) (r x : Rel)
    (h : update_additional_streets_step u t r = .ok x) :
    x = r ∨ ∃ v, x = { r with arts := setArt r.arts Task.additionalStreetsCount v } := by
  unfold update_additional_streets_step at h
  split_ifs at h
  · cases h; exact Or.inl rfl
  · cases h; exact Or.inl rfl
  · cases h; exact Or.inl rfl
  · split at h
    · cases h
    · cases h; exact Or.inr ⟨some (_, t), rfl⟩

theorem taskSeq_true (l : List Rel) (f : List Rel → List Rel × Bool) :
    taskSeq (l, true) f = f l := rfl

theorem stableOsmStreets_establish (t : Nat) (r x : Rel)
    (h : update_osm_streets_step false t r = .ok x) : stableOsmStreets x := by
  unfold update_osm_streets_step at h
  split_ifs at h with h1 h2
  · cases h
    exact Or.inl h1
  · cases h
    exact Or.inr (Or.inl h2.2)
  · split at h
    · cases h
    · rename_i fr heq
      split at h
      · rename_i heq2
        cases h
        refine Or.inr (Or.inr fun i hi => ?_)
        exact osmFetchLoopAux_none_http r.streetsAttempts t 20 0 fr rfl heq heq2 i (Nat.zero_le i) hi
      · cases h
        refine Or.inr (Or.inl ?_)
        simp [setArt]

theorem stableOsmHousenumbers_establish (t : Nat) (r x : Rel)
    (h : update_osm_housenumbers_step false t r = .ok x) : stableOsmHousenumbers x := by
  unfold update_osm_housenumbers_step at h
  split_ifs at h with h1 h2
  · cases h
    exact Or.inl h1
  · cases h
    exact Or.inr (Or.inl h2.2)
  · split at h
    · cases h
    · rename_i fr heq
      split at h
      · rename_i heq2
        cases h
        refine Or.inr (Or.inr fun i hi => ?_)
        exact osmFetchLoopAux_none_http r.housenumbersAttempts t 20 0 fr rfl heq heq2 i
          (Nat.zero_le i) hi
      · cases h
        refine Or.inr (Or.inl ?_)
        simp [setArt]

theorem stableRefStreets_establish (t : Nat) (r x : Rel)
    (h : update_ref_streets_step false t r = .ok x) : stableRefStreets x := by
  unfold update_ref_streets_step at h
  split_ifs at h with h1 h2 h3
  · cases h
    exact Or.inl h1
  · cases h
    exact Or.inr (Or.inl h2.2)
  · cases h
    exact Or.inr (Or.inr h3)
  · split at h
    · cases h
    · cases h
      refine Or.inr (Or.inl ?_)
      simp [setArt]

theorem stableRefHousenumbers_establish (t : Nat) (r x : Rel)
    (h : update_ref_housenumbers_step false t r = .ok x) : stableRefHousenumbers x := by
  unfold update_ref_housenumbers_step at h
  split_ifs at h with h1 h2 h3
  · cases h
    exact Or.inl h1
  · cases h
    exact Or.inr (Or.inl h2.2)
  · cases h
    exact Or.inr (Or.inr (Or.inl h3))
  · split at h
    · rename_i e heq
      cases h
      cases e
      exact Or.inr (Or.inr (Or.inr heq))
    · cases h
      refine Or.inr (Or.inl ?_)
      simp [setArt]

theorem stableStreetsPercent_establish (t : Nat) (r x : Rel)
    (h : update_missing_streets_step false t r = .ok x) : stableStreetsPercent x := by
  unfold update_missing_streets_step at h
  split_ifs at h with h1 h2 h3
  · cases h
    exact Or.inl h1
  · cases h
    exact Or.inr (Or.inl h2.2)
  · cases h
    exact Or.inr (Or.inr h3)
  · split at h
    · cases h
    · cases h
      refine Or.inr (Or.inl ?_)
      simp [setArt]

theorem stableHousenumbersPercent_establish (t : Nat) (r x : Rel)
    (h : update_missing_housenumbers_step false t r = .ok x) : stableHousenumbersPercent x := by
  unfold update_missing_housenumbers_step at h
  split_ifs at h with h1 h2 h3
  · cases h
    exact Or.inl h1
  · cases h
    exact Or.inr (Or.inl h2.2)
  · cases h
    exact Or.inr (Or.inr h3)
  · split at h
    · cases h
    · cases h
      refine Or.inr (Or.inl ?_)
      simp [setArt]

theorem stableAdditionalStreets_establish (t : Nat) (r x : Rel)
    (h : update_additional_streets_step false t r = .ok x) : stableAdditionalStreets x := by
  unfold update_additional_streets_step at h
  split_ifs at h with h1 h2 h3
  · cases h
    exact Or.inl h1
  · cases h
    exact Or.inr (Or.inl h2.2)
  · cases h
    exact Or.inr (Or.inr h3)
  · split at h
    · cases h
    · cases h
      refine Or.inr (Or.inl ?_)
      simp [setArt]

theorem stableOsmStreets_step (r : Rel) (hs : stableOsmStreets r) (t : Nat) :
    update_osm_streets_step false t r = .ok r := by
  rcases hs with h | h | h
  · simp [update_osm_streets_step, h]
  · by_cases ha : r.active = false
    · simp [update_osm_streets_step, ha]
    · simp [update_osm_streets_step, ha, h]
  · by_cases ha : r.active = false
    · simp [update_osm_streets_step, ha]
    · by_cases hsome : (r.arts Task.osmStreets).isSome = true
      · simp [update_osm_streets_step, ha, hsome]
      · have hloop := osmFetchLoopAux_allHttp r.streetsAttempts t 20 0 none rfl
          fun i _ hi => h i hi
        simp [update_osm_streets_step, ha, hsome, osmFetchLoop, hloop]

theorem stableOsmHousenumbers_step (r : Rel) (hs : stableOsmHousenumbers r) (t : Nat) :
    update_osm_housenumbers_step false t r = .ok r := by
  rcases hs with h | h | h
  · simp [update_osm_housenumbers_step, h]
  · by_cases ha : r.active = false
    · simp [update_osm_housenumbers_step, ha]
    · simp [update_osm_housenumbers_step, ha, h]
  · by_cases ha : r.active = false
    · simp [update_osm_housenumbers_step, ha]
    · by_cases hsome : (r.arts Task.osmHousenumbers).isSome = true
      · simp [update_osm_housenumbers_step, ha, hsome]
      · have hloop := osmFetchLoopAux_allHttp r.housenumbersAttempts t 20 0 none rfl
          fun i _ hi => h i hi
        simp [update_osm_housenumbers_step, ha, hsome, osmFetchLoop, hloop]

theorem stableRefStreets_step (r : Rel) (hs : stableRefStreets r) (t : Nat) :
    update_ref_streets_step false t r = .ok r := by
  rcases hs with h | h | h
  · simp [update_ref_streets_step, h]
  · by_cases ha : r.active = false
    · simp [update_ref_streets_step, ha]
    · simp [update_ref_streets_step, ha, h]
  · by_cases ha : r.active = false
    · simp [update_ref_streets_step, ha]
    · by_cases hsome : (r.arts Task.refStreets).isSome = true
      · simp [update_ref_streets_step, ha, hsome]
      · simp [update_ref_streets_step, ha, hsome, h]

theorem stableRefHousenumbers_step (r : Rel) (hs : stableRefHousenumbers r) (t : Nat) :
    update_ref_housenumbers_step false t r = .ok r := by
  rcases hs with h | h | h | h
  · simp [update_ref_housenumbers_step, h]
  · by_cases ha : r.active = false
    · simp [update_ref_housenumbers_step, ha]
    · simp [update_ref_housenumbers_step, ha, h]
  · by_cases ha : r.active = false
    · simp [update_ref_housenumbers_step, ha]
    · by_cases hsome : (r.arts Task.refHousenumbers).isSome = true
      · simp [update_ref_housenumbers_step, ha, hsome]
      · simp [update_ref_housenumbers_step, ha, hsome, h]
  · by_cases ha : r.active = false
    · simp [update_ref_housenumbers_step, ha]
    · by_cases hsome : (r.arts Task.refHousenumbers).isSome = true
      · simp [update_ref_housenumbers_step, ha, hsome]
      · by_cases hpol : r.missingStreets = "only"
        · simp [update_ref_housenumbers_step, ha, hsome, hpol]
        · simp [update_ref_housenumbers_step, ha, hsome, hpol, h]

theorem stableStreetsPercent_step (r : Rel) (hs : stableStreetsPercent r) (t : Nat) :
    update_missing_streets_step false t r = .ok r := by
  rcases hs with h | h | h
  · simp [update_missing_streets_step, h]
  · by_cases ha : r.active = false
    · simp [update_missing_streets_step, ha]
    · simp [update_missing_streets_step, ha, h]
  · by_cases ha : r.active = false
    · simp [update_missing_streets_step, ha]
    · by_cases hsome : (r.arts Task.streetsPercent).isSome = true
      · simp [update_missing_streets_step, ha, hsome]
      · simp [update_missing_streets_step, ha, hsome, h]

theorem stableHousenumbersPercent_step (r : Rel) (hs : stableHousenumbersPercent r) (t : Nat) :
    update_missing_housenumbers_step false t r = .ok r := by
  rcases hs with h | h | h
  · simp [update_missing_housenumbers_step, h]
  · by_cases ha : r.active = false
    · simp [update_missing_housenumbers_step, ha]
    · simp [update_missing_housenumbers_step, ha, h]
  · by_cases ha : r.active = false
    · simp [update_missing_housenumbers_step, ha]
    · by_cases hsome : (r.arts Task.housenumbersPercent).isSome = true
      · simp [update_missing_housenumbers_step, ha, hsome]
      · simp [update_missing_housenumbers_step, ha, hsome, h]

theorem stableAdditionalStreets_step (r : Rel) (hs : stableAdditionalStreets r) (t : Nat) :
    update_additional_streets_step false t r = .ok r := by
  rcases hs with h | h | h
  · simp [update_additional_streets_step, h]
  · by_cases ha : r.active = false
    · simp [update_additional_streets_step, ha]
    · simp [update_additional_streets_step, ha, h]
  · by_cases ha : r.active = false
    · simp [update_additional_streets_step, ha]
    · by_cases hsome : (r.arts Task.additionalStreetsCount).isSome = true
      · simp [update_additional_streets_step, ha, hsome]
      · simp [update_additional_streets_step, ha, hsome, h]

theorem stableOsmStreets_setArt (r : Rel) (k : Task) (v : Option (List String × Nat))
    (hk : ¬Task.osmStreets = k) (hs : stableOsmStreets r) :
    stableOsmStreets { r with arts := setArt r.arts k v } := by
  rcases hs with h | h | h
  · exact Or.inl h
  · refine Or.inr (Or.inl ?_)
    simpa [setArt, hk] using h
  · exact Or.inr (Or.inr h)

theorem stableOsmHousenumbers_setArt (r : Rel) (k : Task) (v : Option (List String × Nat))
    (hk : ¬Task.osmHousenumbers = k) (hs : stableOsmHousenumbers r) :
    stableOsmHousenumbers { r with arts := setArt r.arts k v } := by
  rcases hs with h | h | h
  · exact Or.inl h
  · refine Or.inr (Or.inl ?_)
    simpa [setArt, hk] using h
  · exact Or.inr (Or.inr h)

theorem stableRefStreets_setArt (r : Rel) (k : Task) (v : Option (List String × Nat))
    (hk : ¬Task.refStreets = k) (hs : stableRefStreets r) :
    stableRefStreets { r with arts := setArt r.arts k v } := by
  rcases hs with h | h | h
  · exact Or.inl h
  · refine Or.inr (Or.inl ?_)
    simpa [setArt, hk] using h
  · exact Or.inr (Or.inr h)

theorem stableRefHousenumbers_setArt (r : Rel) (k : Task) (v : Option (List String × Nat))
    (hk : ¬Task.refHousenumbers = k) (hs : stableRefHousenumbers r) :
    stableRefHousenumbers { r with arts := setArt r.arts k v } := by
  rcases hs with h | h | h | h
  · exact Or.inl h
  · refine Or.inr (Or.inl ?_)
    simpa [setArt, hk] using h
  · exact Or.inr (Or.inr (Or.inl h))
  · exact Or.inr (Or.inr (Or.inr h))

theorem stableStreetsPercent_setArt (r : Rel) (k : Task) (v : Option (List String × Nat))
    (hk : ¬Task.streetsPercent = k) (hs : stableStreetsPercent r) :
    stableStreetsPercent { r with arts := setArt r.arts k v } := by
  rcases hs with h | h | h
  · exact Or.inl h
  · refine Or.inr (Or.inl ?_)
    simpa [setArt, hk] using h
  · exact Or.inr (Or.inr h)

theorem stableHousenumbersPercent_setArt (r : Rel) (k : Task) (v : Option (List String × Nat))
    (hk : ¬Task.housenumbersPercent = k) (hs : stableHousenumbersPercent r) :
    stableHousenumbersPercent { r with arts := setArt r.arts k v } := by
  rcases hs with h | h | h
  · exact Or.inl h
  · refine Or.inr (Or.inl ?_)
    simpa [setArt, hk] using h
  · exact Or.inr (Or.inr h)

theorem stableAdditionalStreets_setArt (r : Rel) (k : Task) (v : Option (List String × Nat))
    (hk : ¬Task.additionalStreetsCount = k) (hs : stableAdditionalStreets r) :
    stableAdditionalStreets { r with arts := setArt r.arts k v } := by
  rcases hs with h | h | h
  · exact Or.inl h
  · refine Or.inr (Or.inl ?_)
    simpa [setArt, hk] using h
  · exact Or.inr (Or.inr h)

theorem stableOsmStreets_other (r x : Rel) (k : Task) (hk : ¬Task.osmStreets = k)
    (hframe : x = r ∨ ∃ v, x = { r with arts := setArt r.arts k v })
    (hs : stableOsmStreets r) : stableOsmStreets x := by
  rcases hframe with rfl | ⟨v, rfl⟩
  · exact hs
  · exact stableOsmStreets_setArt r k v hk hs

theorem stableOsmHousenumbers_other (r x : Rel) (k : Task) (hk : ¬Task.osmHousenumbers = k)
    (hframe : x = r ∨ ∃ v, x = { r with arts := setArt r.arts k v })
    (hs : stableOsmHousenumbers r) : stableOsmHousenumbers x := by
  rcases hframe with rfl | ⟨v, rfl⟩
  · exact hs
  · exact stableOsmHousenumbers_setArt r k v hk hs

theorem stableRefStreets_other (r x : Rel) (k : Task) (hk : ¬Task.refStreets = k)
    (hframe : x = r ∨ ∃ v, x = { r with arts := setArt r.arts k v })
    (hs : stableRefStreets r) : stableRefStreets x := by
  rcases hframe with rfl | ⟨v, rfl⟩
  · exact hs
  · exact stableRefStreets_setArt r k v hk hs

theorem stableRefHousenumbers_other (r x : Rel) (k : Task) (hk : ¬Task.refHousenumbers = k)
    (hframe : x = r ∨ ∃ v, x = { r with arts := setArt r.arts k v })
    (hs : stableRefHousenumbers r) : stableRefHousenumbers x := by
  rcases hframe with rfl | ⟨v, rfl⟩
  · exact hs
  · exact stableRefHousenumbers_setArt r k v hk hs

theorem stableStreetsPercent_other (r x : Rel) (k : Task) (hk : ¬Task.streetsPercent = k)
    (hframe : x = r ∨ ∃ v, x = { r with arts := setArt r.arts k v })
    (hs : stableStreetsPercent r) : stableStreetsPercent x := by
  rcases hframe with rfl | ⟨v, rfl⟩
  · exact hs
  · exact stableStreetsPercent_setArt r k v hk hs

theorem stableHousenumbersPercent_other (r x : Rel) (k : Task)
    (hk : ¬Task.housenumbersPercent = k)
    (hframe : x = r ∨ ∃ v, x = { r with arts := setArt r.arts k v })
    (hs : stableHousenumbersPercent r) : stableHousenumbersPercent x := by
  rcases hframe with rfl | ⟨v, rfl⟩
  · exact hs
  · exact stableHousenumbersPercent_setArt r k v hk hs

theorem stableAdditionalStreets_other (r x : Rel) (k : Task)
    (hk : ¬Task.additionalStreetsCount = k)
    (hframe : x = r ∨ ∃ v, x = { r with arts := setArt r.arts k v })
    (hs : stableAdditionalStreets r) : stableAdditionalStreets x := by
  rcases hframe with rfl | ⟨v, rfl⟩
  · exact hs
  · exact stableAdditionalStreets_setArt r k v hk hs

theorem statsFetchLoopAux_success (a : Nat → Attempt) (t : Nat) :
    ∀ fuel retry written j p, retry + fuel = 20 → retry ≤ j → j < 20 →
      (∀ i, retry ≤ i → i < j → a i = .httpError) →
      a j = .fetched p →
      statsFetchLoopAux a t retry fuel written = .ok ⟨some (p, t), true, j + 1⟩ := by
  intro fuel
  induction fuel with
  | zero =>
    intro retry written j p hinv hrj hj _ _
    omega
  | succ fuel ih =>
    intro retry written j p hinv hrj hj hfail hj2
    have hsr : should_retry retry = true := by
      simp only [should_retry, decide_eq_true_eq]
      omega
    rcases Nat.eq_or_lt_of_le hrj with heq | hlt
    · subst heq
      simp [statsFetchLoopAux, hsr, hj2]
    · have hf := hfail retry le_rfl hlt
      simpa [statsFetchLoopAux, hsr, hf] using
        ih (retry + 1) written j p (by omega) (by omega) hj
          (fun i h1 h2 => hfail i (by omega) h2) hj2

/-- Claim C6: with `update = false` every task whose target artifact already
exists skips its relation (returning it unchanged), and consequently a second
relations-phase run with `update = false` against an unchanged environment
reproduces the first run's artifact store exactly — same bytes, same mtimes —
and succeeds. -/
theorem claim_C6 (t1 t2 : Nat) (rels s1 : List Rel)
    (h : relationsPhase false t1 rels = (s1, true)) :
    relationsPhase false t2 s1 = (s1, true)
    ∧ (∀ t r, (Rel.arts r Task.osmStreets).isSome = true →
        update_osm_streets_step false t r = .ok r)
    ∧ (∀ t r, (Rel.arts r Task.osmHousenumbers).isSome = true →
        update_osm_housenumbers_step false t r = .ok r)
    ∧ (∀ t r, (Rel.arts r Task.refStreets).isSome = true →
        update_ref_streets_step false t r = .ok r)
    ∧ (∀ t r, (Rel.arts r Task.refHousenumbers).isSome = true →
        update_ref_housenumbers_step false t r = .ok r)
    ∧ (∀ t r, (Rel.arts r Task.streetsPercent).isSome = true →
        update_missing_streets_step false t r = .ok r)
    ∧ (∀ t r, (Rel.arts r Task.housenumbersPercent).isSome = true →
        update_missing_housenumbers_step false t r = .ok r)
    ∧ (∀ t r, (Rel.arts r Task.additionalStreetsCount).isSome = true →
        update_additional_streets_step false t r = .ok r) := by
  refine ⟨?_, fun t r hs => stableOsmStreets_step r (Or.inr (Or.inl hs)) t,
    fun t r hs => stableOsmHousenumbers_step r (Or.inr (Or.inl hs)) t,
    fun t r hs => stableRefStreets_step r (Or.inr (Or.inl hs)) t,
    fun t r hs => stableRefHousenumbers_step r (Or.inr (Or.inl hs)) t,
    fun t r hs => stableStreetsPercent_step r (Or.inr (Or.inl hs)) t,
    fun t r hs => stableHousenumbersPercent_step r (Or.inr (Or.inl hs)) t,
    fun t r hs => stableAdditionalStreets_step r (Or.inr (Or.inl hs)) t⟩
  have h' : taskSeq (taskSeq (taskSeq (taskSeq (taskSeq (taskSeq
      (update_osm_streets false t1 rels) (update_osm_housenumbers false t1))
      (update_ref_streets false t1)) (update_ref_housenumbers false t1))
      (update_missing_streets false t1)) (update_missing_housenumbers false t1))
      (update_additional_streets false t1) = (s1, true) := h
  obtain ⟨hf6, he7⟩ := taskSeq_ok _ (update_additional_streets false t1) (by rw [h'])
  obtain ⟨hf5, he6⟩ := taskSeq_ok _ (update_missing_housenumbers false t1) hf6
  obtain ⟨hf4, he5⟩ := taskSeq_ok _ (update_missing_streets false t1) hf5
  obtain ⟨hf3, he4⟩ := taskSeq_ok _ (update_ref_housenumbers false t1) hf4
  obtain ⟨hf2, he3⟩ := taskSeq_ok _ (update_ref_streets false t1) hf3
  obtain ⟨hf1, he2⟩ := taskSeq_ok _ (update_osm_housenumbers false t1) hf2
  have h7 := he7.symm.trans h'
  rw [he2] at hf2 hf3 hf4 hf5 hf6 he3 he4 he5 he6 h7
  rw [he3] at hf3 hf4 hf5 hf6 he4 he5 he6 h7
  rw [he4] at hf4 hf5 hf6 he5 he6 h7
  rw [he5] at hf5 hf6 he6 h7
  rw [he6] at hf6 h7
  set L1 := (update_osm_streets false t1 rels).1 with hL1
  set L2 := (update_osm_housenumbers false t1 L1).1 with hL2
  set L3 := (update_ref_streets false t1 L2).1 with hL3
  set L4 := (update_ref_housenumbers false t1 L3).1 with hL4
  set L5 := (update_missing_streets false t1 L4).1 with hL5
  set L6 := (update_missing_housenumbers false t1 L5).1 with hL6
  have hs1 : (update_additional_streets false t1 L6).1 = s1 := by rw [h7]
  have hf7 : (update_additional_streets false t1 L6).2 = true := by rw [h7]
  -- stage 1: establish osm-streets stability
  have M1a : ∀ x ∈ L1, stableOsmStreets x :=
    runTaskList_establish _ _ (fun r x => stableOsmStreets_establish t1 r x) rels hf1
  -- stage 2
  have M2a : ∀ x ∈ L2, stableOsmStreets x :=
    runTaskList_preserve _ _
      (fun r x hrx => stableOsmStreets_other r x _ (by decide)
        (update_osm_housenumbers_step_frame false t1 r x hrx)) L1 hf2 M1a
  have M2b : ∀ x ∈ L2, stableOsmHousenumbers x :=
    runTaskList_establish _ _ (fun r x => stableOsmHousenumbers_establish t1 r x) L1 hf2
  -- stage 3
  have M3a : ∀ x ∈ L3, stableOsmStreets x :=
    runTaskList_preserve _ _
      (fun r x hrx => stableOsmStreets_other r x _ (by decide)
        (update_ref_streets_step_frame false t1 r x hrx)) L2 hf3 M2a
  have M3b : ∀ x ∈ L3, stableOsmHousenumbers x :=
    runTaskList_preserve _ _
      (fun r x hrx => stableOsmHousenumbers_other r x _ (by decide)
        (update_ref_streets_step_frame false t1 r x hrx)) L2 hf3 M2b
  have M3c : ∀ x ∈ L3, stableRefStreets x :=
    runTaskList_establish _ _ (fun r x => stableRefStreets_establish t1 r x) L2 hf3
  -- stage 4
  have M4a : ∀ x ∈ L4, stableOsmStreets x :=
    runTaskList_preserve _ _
      (fun r x hrx => stableOsmStreets_other r x _ (by decide)
        (update_ref_housenumbers_step_frame false t1 r x hrx)) L3 hf4 M3a
  have M4b : ∀ x ∈ L4, stableOsmHousenumbers x :=
    runTaskList_preserve _ _
      (fun r x hrx => stableOsmHousenumbers_other r x _ (by decide)
        (update_ref_housenumbers_step_frame false t1 r x hrx)) L3 hf4 M3b
  have M4c : ∀ x ∈ L4, stableRefStreets x :=
    runTaskList_preserve _ _
      (fun r x hrx => stableRefStreets_other r x _ (by decide)
        (update_ref_housenumbers_step_frame false t1 r x hrx)) L3 hf4 M3c
  have M4d : ∀ x ∈ L4, stableRefHousenumbers x :=
    runTaskList_establish _ _ (fun r x => stableRefHousenumbers_establish t1 r x) L3 hf4
  -- stage 5
  have M5a : ∀ x ∈ L5, stableOsmStreets x :=
    runTaskList_preserve _ _
      (fun r x hrx => stableOsmStreets_other r x _ (by decide)
        (update_missing_streets_step_frame false t1 r x hrx)) L4 hf5 M4a
  have M5b : ∀ x ∈ L5, stableOsmHousenumbers x :=
    runTaskList_preserve _ _
      (fun r x hrx => stableOsmHousenumbers_other r x _ (by decide)
        (update_missing_streets_step_frame false t1 r x hrx)) L4 hf5 M4b
  have M5c : ∀ x ∈ L5, stableRefStreets x :=
    runTaskList_preserve _ _
      (fun r x hrx => stableRefStreets_other r x _ (by decide)
        (update_missing_streets_step_frame false t1 r x hrx)) L4 hf5 M4c
  have M5d : ∀ x ∈ L5, stableRefHousenumbers x :=
    runTaskList_preserve _ _
      (fun r x hrx => stableRefHousenumbers_other r x _ (by decide)
        (update_missing_streets_step_frame false t1 r x hrx)) L4 hf5 M4d
  have M5e : ∀ x ∈ L5, stableStreetsPercent x :=
    runTaskList_establish _ _ (fun r x => stableStreetsPercent_establish t1 r x) L4 hf5
  -- stage 6
  have M6a : ∀ x ∈ L6, stableOsmStreets x :=
    runTaskList_preserve _ _
      (fun r x hrx => stableOsmStreets_other r x _ (by decide)
        (update_missing_housenumbers_step_frame false t1 r x hrx)) L5 hf6 M5a
  have M6b : ∀ x ∈ L6, stableOsmHousenumbers x :=
    runTaskList_preserve _ _
      (fun r x hrx => stableOsmHousenumbers_other r x _ (by decide)
        (update_missing_housenumbers_step_frame false t1 r x hrx)) L5 hf6 M5b
  have M6c : ∀ x ∈ L6, stableRefStreets x :=
    runTaskList_preserve _ _
      (fun r x hrx => stableRefStreets_other r x _ (by decide)
        (update_missing_housenumbers_step_frame false t1 r x hrx)) L5 hf6 M5c
  have M6d : ∀ x ∈ L6, stableRefHousenumbers x :=
    runTaskList_preserve _ _
      (fun r x hrx => stableRefHousenumbers_other r x _ (by decide)
        (update_missing_housenumbers_step_frame false t1 r x hrx)) L5 hf6 M5d
  have M6e : ∀ x ∈ L6, stableStreetsPercent x :=
    runTaskList_preserve _ _
      (fun r x hrx => stableStreetsPercent_other r x _ (by decide)
        (update_missing_housenumbers_step_frame false t1 r x hrx)) L5 hf6 M5e
  have M6f : ∀ x ∈ L6, stableHousenumbersPercent x :=
    runTaskList_establish _ _ (fun r x => stableHousenumbersPercent_establish t1 r x) L5 hf6
  -- stage 7
  have M7a : ∀ x ∈ s1, stableOsmStreets x := by
    rw [← hs1]
    exact runTaskList_preserve _ _
      (fun r x hrx => stableOsmStreets_other r x _ (by decide)
        (update_additional_streets_step_frame false t1 r x hrx)) L6 hf7 M6a
  have M7b : ∀ x ∈ s1, stableOsmHousenumbers x := by
    rw [← hs1]
    exact runTaskList_preserve _ _
      (fun r x hrx => stableOsmHousenumbers_other r x _ (by decide)
        (update_additional_streets_step_frame false t1 r x hrx)) L6 hf7 M6b
  have M7c : ∀ x ∈ s1, stableRefStreets x := by
    rw [← hs1]
    exact runTaskList_preserve _ _
      (fun r x hrx => stableRefStreets_other r x _ (by decide)
        (update_additional_streets_step_frame false t1 r x hrx)) L6 hf7 M6c
  have M7d : ∀ x ∈ s1, stableRefHousenumbers x := by
    rw [← hs1]
    exact runTaskList_preserve _ _
      (fun r x hrx => stableRefHousenumbers_other r x _ (by decide)
        (update_additional_streets_step_frame false t1 r x hrx)) L6 hf7 M6d
  have M7e : ∀ x ∈ s1, stableStreetsPercent x := by
    rw [← hs1]
    exact runTaskList_preserve _ _
      (fun r x hrx => stableStreetsPercent_other r x _ (by decide)
        (update_additional_streets_step_frame false t1 r x hrx)) L6 hf7 M6e
  have M7f : ∀ x ∈ s1, stableHousenumbersPercent x := by
    rw [← hs1]
    exact runTaskList_preserve _ _
      (fun r x hrx => stableHousenumbersPercent_other r x _ (by decide)
        (update_additional_streets_step_frame false t1 r x hrx)) L6 hf7 M6f
  have M7g : ∀ x ∈ s1, stableAdditionalStreets x := by
    rw [← hs1]
    exact runTaskList_establish _ _ (fun r x => stableAdditionalStreets_establish t1 r x) L6 hf7
  -- second run: every task is the identity
  have R1 : update_osm_streets false t2 s1 = (s1, true) :=
    runTaskList_id _ s1 fun r hr => stableOsmStreets_step r (M7a r hr) t2
  have R2 : update_osm_housenumbers false t2 s1 = (s1, true) :=
    runTaskList_id _ s1 fun r hr => stableOsmHousenumbers_step r (M7b r hr) t2
  have R3 : update_ref_streets false t2 s1 = (s1, true) :=
    runTaskList_id _ s1 fun r hr => stableRefStreets_step r (M7c r hr) t2
  have R4 : update_ref_housenumbers false t2 s1 = (s1, true) :=
    runTaskList_id _ s1 fun r hr => stableRefHousenumbers_step r (M7d r hr) t2
  have R5 : update_missing_streets false t2 s1 = (s1, true) :=
    runTaskList_id _ s1 fun r hr => stableStreetsPercent_step r (M7e r hr) t2
  have R6 : update_missing_housenumbers false t2 s1 = (s1, true) :=
    runTaskList_id _ s1 fun r hr => stableHousenumbersPercent_step r (M7f r hr) t2
  have R7 : update_additional_streets false t2 s1 = (s1, true) :=
    runTaskList_id _ s1 fun r hr => stableAdditionalStreets_step r (M7g r hr) t2
  show taskSeq (taskSeq (taskSeq (taskSeq (taskSeq (taskSeq
      (update_osm_streets false t2 s1) (update_osm_housenumbers false t2))
      (update_ref_streets false t2)) (update_ref_housenumbers false t2))
      (update_missing_streets false t2)) (update_missing_housenumbers false t2))
      (update_additional_streets false t2) = (s1, true)
  rw [R1, taskSeq_true, R2, taskSeq_true, R3, taskSeq_true, R4, taskSeq_true, R5,
    taskSeq_true, R6, taskSeq_true, R7]

theorem update_ref_housenumbers_step_skip_only (u : Bool) (t : Nat) (r : Rel)
    (hpol : r.missingStreets = "only") : update_ref_housenumbers_step u t r = .ok r := by
  unfold update_ref_housenumbers_step
  split_ifs <;> rfl

theorem update_ref_streets_step_skip_no (u : Bool) (t : Nat) (r : Rel)
    (hpol : r.missingStreets = "no") : update_ref_streets_step u t r = .ok r := by
  unfold update_ref_streets_step
  split_ifs <;> rfl

theorem update_missing_streets_step_skip_no (u : Bool) (t : Nat) (r : Rel)
    (hpol : r.missingStreets = "no") : update_missing_streets_step u t r = .ok r := by
  unfold update_missing_streets_step
  split_ifs <;> rfl

theorem update_missing_housenumbers_step_skip_only (u : Bool) (t : Nat) (r : Rel)
    (hpol : r.missingStreets = "only") : update_missing_housenumbers_step u t r = .ok r := by
  unfold update_missing_housenumbers_step
  split_ifs <;> rfl

theorem update_additional_streets_step_skip_no (u : Bool) (t : Nat) (r : Rel)
    (hpol : r.missingStreets = "no") : update_additional_streets_step u t r = .ok r := by
  unfold update_additional_streets_step
  split_ifs <;> rfl

theorem forall2_comp {α : Type} {P Q R : α → α → Prop}
    (hcomp : ∀ a b c, P a b → Q b c → R a c) :
    ∀ l1 l2 l3 : List α, List.Forall₂ P l1 l2 → List.Forall₂ Q l2 l3 →
      List.Forall₂ R l1 l3 := by
  intro l1
  induction l1 with
  | nil =>
    intro l2 l3 h12 h23
    cases h12
    cases h23
    exact .nil
  | cons a l ih =>
    intro l2 l3 h12 h23
    rcases List.forall₂_cons_left_iff.mp h12 with ⟨b, l2', hab, h12', rfl⟩
    rcases List.forall₂_cons_left_iff.mp h23 with ⟨c, l3', hbc, h23', rfl⟩
    exact .cons (hcomp a b c hab hbc) (ih l2' l3' h12' h23')

theorem phase_stage (u : Bool) (t : Nat) (step : Rel → Except Unit Rel)
    (hstep : ∀ r x, step r = .ok x → anyStepRel u t r x)
    (rels : List Rel) (p : List Rel × Bool)
    (hp : List.Forall₂ (phaseRel u t) rels p.1) :
    List.Forall₂ (phaseRel u t) rels (taskSeq p (runTaskList step)).1 := by
  by_cases h2 : p.2 = true
  · rw [show taskSeq p (runTaskList step) = runTaskList step p.1 by simp [taskSeq, h2]]
    refine forall2_comp (fun a b c hab hbc => ?_) rels p.1 _ hp (runTaskList_forall2 step p.1)
    rcases hbc with hbc | rfl
    · exact Relation.ReflTransGen.tail hab (hstep b c hbc)
    · exact hab
  · rw [show taskSeq p (runTaskList step) = p by simp [taskSeq, h2]]
    exact hp

theorem relationsPhase_forall2 (u : Bool) (t : Nat) (rels : List Rel) :
    List.Forall₂ (phaseRel u t) rels (relationsPhase u t rels).1 := by
  have s1 : List.Forall₂ (phaseRel u t) rels (update_osm_streets u t rels).1 := by
    refine (runTaskList_forall2 (update_osm_streets_step u t) rels).imp ?_
    intro a b hab
    rcases hab with hab | rfl
    · exact Relation.ReflTransGen.single (Or.inl hab)
    · exact Relation.ReflTransGen.refl
  have s2 := phase_stage u t (update_osm_housenumbers_step u t)
    (fun r x hx => Or.inr (Or.inl hx)) rels (update_osm_streets u t rels) s1
  have s3 := phase_stage u t (update_ref_streets_step u t)
    (fun r x hx => Or.inr (Or.inr (Or.inl hx))) rels _ s2
  have s4 := phase_stage u t (update_ref_housenumbers_step u t)
    (fun r x hx => Or.inr (Or.inr (Or.inr (Or.inl hx)))) rels _ s3
  have s5 := phase_stage u t (update_missing_streets_step u t)
    (fun r x hx => Or.inr (Or.inr (Or.inr (Or.inr (Or.inl hx))))) rels _ s4
  have s6 := phase_stage u t (update_missing_housenumbers_step u t)
    (fun r x hx => Or.inr (Or.inr (Or.inr (Or.inr (Or.inr (Or.inl hx)))))) rels _ s5
  have s7 := phase_stage u t (update_additional_streets_step u t)
    (fun r x hx => Or.inr (Or.inr (Or.inr (Or.inr (Or.inr (Or.inr hx)))))) rels _ s6
  exact s7

theorem anyStepRel_policy_gate (u : Bool) (t : Nat) (r x : Rel) (h : anyStepRel u t r x) :
    x.missingStreets = r.missingStreets
    ∧ (r.missingStreets = "only" →
        x.arts Task.refHousenumbers = r.arts Task.refHousenumbers
        ∧ x.arts Task.housenumbersPercent = r.arts Task.housenumbersPercent)
    ∧ (r.missingStreets = "no" →
        x.arts Task.refStreets = r.arts Task.refStreets
        ∧ x.arts Task.streetsPercent = r.arts Task.streetsPercent) := by
  rcases h with h | h | h | h | h | h | h
  · rcases update_osm_streets_step_frame u t r x h with rfl | ⟨v, rfl⟩
    · exact ⟨rfl, fun _ => ⟨rfl, rfl⟩, fun _ => ⟨rfl, rfl⟩⟩
    · refine ⟨rfl, fun _ => ⟨?_, ?_⟩, fun _ => ⟨?_, ?_⟩⟩ <;> simp [setArt]
  · rcases update_osm_housenumbers_step_frame u t r x h with rfl | ⟨v, rfl⟩
    · exact ⟨rfl, fun _ => ⟨rfl, rfl⟩, fun _ => ⟨rfl, rfl⟩⟩
    · refine ⟨rfl, fun _ => ⟨?_, ?_⟩, fun _ => ⟨?_, ?_⟩⟩ <;> simp [setArt]
  · refine ⟨?_, ?_, ?_⟩
    · rcases update_ref_streets_step_frame u t r x h with rfl | ⟨v, rfl⟩ <;> rfl
    · intro hpol
      rcases update_ref_streets_step_frame u t r x h with rfl | ⟨v, rfl⟩
      · exact ⟨rfl, rfl⟩
      · constructor <;> simp [setArt]
    · intro hpol
      rw [update_ref_streets_step_skip_no u t r hpol] at h
      cases h
      exact ⟨rfl, rfl⟩
  · refine ⟨?_, ?_, ?_⟩
    · rcases update_ref_housenumbers_step_frame u t r x h with rfl | ⟨v, rfl⟩ <;> rfl
    · intro hpol
      rw [update_ref_housenumbers_step_skip_only u t r hpol] at h
      cases h
      exact ⟨rfl, rfl⟩
    · intro hpol
      rcases update_ref_housenumbers_step_frame u t r x h with rfl | ⟨v, rfl⟩
      · exact ⟨rfl, rfl⟩
      · constructor <;> simp [setArt]
  · refine ⟨?_, ?_, ?_⟩
    · rcases update_missing_streets_step_frame u t r x h with rfl | ⟨v, rfl⟩ <;> rfl
    · intro hpol
      rcases update_missing_streets_step_frame u t r x h with rfl | ⟨v, rfl⟩
      · exact ⟨rfl, rfl⟩
      · constructor <;> simp [setArt]
    · intro hpol
      rw [update_missing_streets_step_skip_no u t r hpol] at h
      cases h
      exact ⟨rfl, rfl⟩
  · refine ⟨?_, ?_, ?_⟩
    · rcases update_missing_housenumbers_step_frame u t r x h with rfl | ⟨v, rfl⟩ <;> rfl
    · intro hpol
      rw [update_missing_housenumbers_step_skip_only u t r hpol] at h
      cases h
      exact ⟨rfl, rfl⟩
    · intro hpol
      rcases update_missing_housenumbers_step_frame u t r x h with rfl | ⟨v, rfl⟩
      · exact ⟨rfl, rfl⟩
      · constructor <;> simp [setArt]
  · rcases update_additional_streets_step_frame u t r x h with rfl | ⟨v, rfl⟩
    · exact ⟨rfl, fun _ => ⟨rfl, rfl⟩, fun _ => ⟨rfl, rfl⟩⟩
    · refine ⟨rfl, fun _ => ⟨?_, ?_⟩, fun _ => ⟨?_, ?_⟩⟩ <;> simp [setArt]

theorem phaseRel_policy_gate (u : Bool) (t : Nat) (r x : Rel) (h : phaseRel u t r x) :
    x.missingStreets = r.missingStreets
    ∧ (r.missingStreets = "only" →
        x.arts Task.refHousenumbers = r.arts Task.refHousenumbers
        ∧ x.arts Task.housenumbersPercent = r.arts Task.housenumbersPercent)
    ∧ (r.missingStreets = "no" →
        x.arts Task.refStreets = r.arts Task.refStreets
        ∧ x.arts Task.streetsPercent = r.arts Task.streetsPercent) := by
  induction h with
  | refl => exact ⟨rfl, fun _ => ⟨rfl, rfl⟩, fun _ => ⟨rfl, rfl⟩⟩
  | tail hab hbc ih =>
    obtain ⟨hpol, honly, hno⟩ := ih
    obtain ⟨hpol2, honly2, hno2⟩ := anyStepRel_policy_gate u t _ _ hbc
    refine ⟨hpol2.trans hpol, fun hp => ?_, fun hp => ?_⟩
    · obtain ⟨e1, e2⟩ := honly hp
      obtain ⟨f1, f2⟩ := honly2 (by rw [hpol, hp])
      exact ⟨f1.trans e1, f2.trans e2⟩
    · obtain ⟨e1, e2⟩ := hno hp
      obtain ⟨f1, f2⟩ := hno2 (by rw [hpol, hp])
      exact ⟨f1.trans e1, f2.trans e2⟩

/-- Claim C2, corrected (the claim swaps the two policies): a relations-phase
run never produces ref-streets or missing-streets% artifacts for a relation
whose missing-streets policy is "no", and never produces ref-housenumbers or
missing-housenumbers% artifacts for a relation whose policy is "only" — every
relation in the output is related to its input state with those artifact
slots untouched. -/
theorem claim_C2_amended (u : Bool) (t : Nat) (rels : List Rel) :
    List.Forall₂ (fun r x =>
      (Rel.missingStreets r = "only" →
        Rel.arts x Task.refHousenumbers = Rel.arts r Task.refHousenumbers
        ∧ Rel.arts x Task.housenumbersPercent = Rel.arts r Task.housenumbersPercent)
      ∧ (Rel.missingStreets r = "no" →
        Rel.arts x Task.refStreets = Rel.arts r Task.refStreets
        ∧ Rel.arts x Task.streetsPercent = Rel.arts r Task.streetsPercent))
      rels (relationsPhase u t rels).1 := by
  refine (relationsPhase_forall2 u t rels).imp ?_
  intro r x hrx
  obtain ⟨_, honly, hno⟩ := phaseRel_policy_gate u t r x hrx
  exact ⟨honly, hno⟩

/-- Claim C2, counterexample to the claim as stated: after a relations-phase
run with `update = true` over an active policy-"only" relation and an active
policy-"no" relation (no pre-existing artifacts, cooperative environment),
the "only" relation HAS ref-streets and missing-streets% artifacts and the
"no" relation HAS ref-housenumbers and missing-housenumbers% artifacts —
exactly the artifacts the claim says are never produced. -/
theorem claim_C2_counterexample :
    ((relationsPhase true 3 [relOnlyFix, relNoFix]).1.map fun r =>
      ((r.arts Task.refStreets).isSome, (r.arts Task.streetsPercent).isSome,
       (r.arts Task.refHousenumbers).isSome, (r.arts Task.housenumbersPercent).isSome)) =
    [(true, true, false, false), (false, false, true, true)] := by
  decide

theorem claim_C2_amended_witness :
    (relationsPhase true 3 [relNoFix]).1.map (fun r => r.arts Task.refStreets) = [none] := by
  have h := claim_C2_amended true 3 [relNoFix]
  rcases List.forall₂_cons_left_iff.mp h with ⟨x, l', hx, hrest, heq⟩
  cases hrest
  rw [heq]
  simp only [List.map_cons, List.map_nil]
  rw [(hx.2 rfl).1]
  rfl

/-- Claim C5: the per-task skip rules — `update_ref_housenumbers` skips policy
"only" relations, `update_ref_streets`, `update_missing_streets` and
`update_additional_streets` skip policy "no" relations,
`update_missing_housenumbers` skips policy "only" relations, each returning
the relation unchanged (no artifact written); and the decisions are
independent per task: on one and the same policy-"only" relation,
`update_ref_streets` writes its artifact while `update_ref_housenumbers`
skips. -/
theorem claim_C5 :
    (∀ u t r, Rel.missingStreets r = "only" → update_ref_housenumbers_step u t r = .ok r)
    ∧ (∀ u t r, Rel.missingStreets r = "no" → update_ref_streets_step u t r = .ok r)
    ∧ (∀ u t r, Rel.missingStreets r = "no" → update_missing_streets_step u t r = .ok r)
    ∧ (∀ u t r, Rel.missingStreets r = "no" → update_additional_streets_step u t r = .ok r)
    ∧ (∀ u t r, Rel.missingStreets r = "only" → update_missing_housenumbers_step u t r = .ok r)
    ∧ (∃ x, update_ref_streets_step true 0 relOnlyFix = .ok x
        ∧ x.arts Task.refStreets ≠ relOnlyFix.arts Task.refStreets)
    ∧ update_ref_housenumbers_step true 0 relOnlyFix = .ok relOnlyFix := by
  refine ⟨fun u t r h => update_ref_housenumbers_step_skip_only u t r h,
    fun u t r h => update_ref_streets_step_skip_no u t r h,
    fun u t r h => update_missing_streets_step_skip_no u t r h,
    fun u t r h => update_additional_streets_step_skip_no u t r h,
    fun u t r h => update_missing_housenumbers_step_skip_only u t r h,
    ⟨{ relOnlyFix with arts := setArt relOnlyFix.arts Task.refStreets (some (["rs"], 0)) },
      rfl, by decide⟩,
    update_ref_housenumbers_step_skip_only true 0 relOnlyFix rfl⟩

theorem claim_C5_witness :
    update_ref_housenumbers_step true 0 relOnlyFix = .ok relOnlyFix
    ∧ update_ref_streets_step true 0 relNoFix = .ok relNoFix
    ∧ update_missing_streets_step true 0 relNoFix = .ok relNoFix
    ∧ update_additional_streets_step true 0 relNoFix = .ok relNoFix
    ∧ update_missing_housenumbers_step true 0 relOnlyFix = .ok relOnlyFix :=
  ⟨claim_C5.1 true 0 relOnlyFix rfl, claim_C5.2.1 true 0 relNoFix rfl,
    claim_C5.2.2.1 true 0 relNoFix rfl, claim_C5.2.2.2.1 true 0 relNoFix rfl,
    claim_C5.2.2.2.2.1 true 0 relOnlyFix rfl⟩

/-- Claim C1: each OSM-kind fetch loop makes at most 20 attempts.  If every
attempt fails (HTTP error or zero-length write) the loop ends after exactly 20
attempts with no success, the relation-level update functions still return
`Ok` (the task is merely abandoned), and a first successful attempt `j < 20`
persists its payload and stops the loop after `j + 1` attempts.  The same
holds for the whole-country stats fetch loop, whose failure mode is the HTTP
error (it performs no zero-length re-check). -/
theorem claim_C1 :
    (∀ a t, (∀ i, i < 20 → osmAttemptFails (a i)) →
      ∃ w, osmFetchLoop a t = .ok ⟨w, false, 20⟩)
    ∧ (∀ a t j p, j < 20 → (∀ i, i < j → osmAttemptFails (a i)) →
        a j = .fetched p → p.length ≠ 0 →
        osmFetchLoop a t = .ok ⟨some (p, t), true, j + 1⟩)
    ∧ (∀ u t rels, (∀ r ∈ rels, ∀ i, i < 20 → osmAttemptFails (Rel.streetsAttempts r i)) →
        (update_osm_streets u t rels).2 = true)
    ∧ (∀ u t rels,
        (∀ r ∈ rels, ∀ i, i < 20 → osmAttemptFails (Rel.housenumbersAttempts r i)) →
        (update_osm_housenumbers u t rels).2 = true)
    ∧ (∀ a t, (∀ i, i < 20 → a i = .httpError) →
        statsFetchLoop a t = .ok ⟨none, false, 20⟩)
    ∧ (∀ a t j p, j < 20 → (∀ i, i < j → a i = .httpError) → a j = .fetched p →
        statsFetchLoop a t = .ok ⟨some (p, t), true, j + 1⟩) := by
  refine ⟨?_, ?_, ?_, ?_, ?_, ?_⟩
  · intro a t hfail
    exact osmFetchLoopAux_fail a t 20 0 none rfl fun i _ hi => hfail i hi
  · intro a t j p hj hfail hjp hp
    exact osmFetchLoopAux_success a t 20 0 none j p rfl (Nat.zero_le j) hj
      (fun i _ hi => hfail i hi) hjp hp
  · intro u t rels hall
    apply runTaskList_flag
    intro r hr
    by_cases ha : r.active = false
    · exact ⟨r, by simp [update_osm_streets_step, ha]⟩
    · by_cases hsk : u = false ∧ (r.arts Task.osmStreets).isSome = true
      · exact ⟨r, by simp [update_osm_streets_step, ha, hsk]⟩
      · obtain ⟨w, hw⟩ := osmFetchLoopAux_fail r.streetsAttempts t 20 0 none rfl
          fun i _ hi => hall r hr i hi
        cases w with
        | none =>
          exact ⟨r, by simp [update_osm_streets_step, ha, hsk, osmFetchLoop, hw]⟩
        | some v =>
          exact ⟨{ r with arts := setArt r.arts Task.osmStreets (some v) },
            by simp [update_osm_streets_step, ha, hsk, osmFetchLoop, hw]⟩
  · intro u t rels hall
    apply runTaskList_flag
    intro r hr
    by_cases ha : r.active = false
    · exact ⟨r, by simp [update_osm_housenumbers_step, ha]⟩
    · by_cases hsk : u = false ∧ (r.arts Task.osmHousenumbers).isSome = true
      · exact ⟨r, by simp [update_osm_housenumbers_step, ha, hsk]⟩
      · obtain ⟨w, hw⟩ := osmFetchLoopAux_fail r.housenumbersAttempts t 20 0 none rfl
          fun i _ hi => hall r hr i hi
        cases w with
        | none =>
          exact ⟨r, by simp [update_osm_housenumbers_step, ha, hsk, osmFetchLoop, hw]⟩
        | some v =>
          exact ⟨{ r with arts := setArt r.arts Task.osmHousenumbers (some v) },
            by simp [update_osm_housenumbers_step, ha, hsk, osmFetchLoop, hw]⟩
  · intro a t hfail
    exact statsFetchLoopAux_allHttp a t 20 0 none rfl fun i _ hi => hfail i hi
  · intro a t j p hj hfail hjp
    exact statsFetchLoopAux_success a t 20 0 none j p rfl (Nat.zero_le j) hj
      (fun i _ hi => hfail i hi) hjp

theorem claim_C1_witness :
    (∃ w, osmFetchLoop (fun _ => Attempt.httpError) 0 = .ok ⟨w, false, 20⟩)
    ∧ osmFetchLoop (fun _ => Attempt.fetched ["p"]) 7 = .ok ⟨some (["p"], 7), true, 1⟩
    ∧ (update_osm_streets true 0 [relHttpFix]).2 = true
    ∧ (update_osm_housenumbers true 0 [relHttpFix]).2 = true
    ∧ statsFetchLoop (fun _ => Attempt.httpError) 0 = .ok ⟨none, false, 20⟩
    ∧ statsFetchLoop (fun _ => Attempt.fetched ["p"]) 7 = .ok ⟨some (["p"], 7), true, 1⟩ := by
  refine ⟨claim_C1.1 _ 0 fun i _ => Or.inl rfl,
    claim_C1.2.1 _ 7 0 ["p"] (by decide) (fun i hi => absurd hi (Nat.not_lt_zero i)) rfl
      (by decide),
    claim_C1.2.2.1 true 0 [relHttpFix] ?_,
    claim_C1.2.2.2.1 true 0 [relHttpFix] ?_,
    claim_C1.2.2.2.2.1 _ 0 fun i _ => rfl,
    claim_C1.2.2.2.2.2 _ 7 0 ["p"] (by decide) (fun i hi => absurd hi (Nat.not_lt_zero i)) rfl⟩
  · intro r hr i _
    rcases List.mem_singleton.mp hr with rfl
    exact Or.inl rfl
  · intro r hr i _
    rcases List.mem_singleton.mp hr with rfl
    exact Or.inl rfl

/-- Claim C4, counterexample to the claim as stated: a write failure in
`update_ref_streets` escapes through `?` — the function returns `Err` (flag
`false`) and the second relation is never processed (its artifacts stay
untouched), so a single relation/task failure DOES stop iteration for this
task kind. -/
theorem claim_C4_counterexample :
    update_ref_streets true 0 [relWriteErrFix, relFix] = ([relWriteErrFix, relFix], false) :=
  rfl

/-- Claim C4, corrected: only `update_ref_housenumbers` isolates a
per-relation write failure (it logs and continues, so the function always
returns `Ok`); in `update_ref_streets`, `update_missing_streets`,
`update_missing_housenumbers` and `update_additional_streets` a write failure
propagates out of the loop iteration, aborting the function with the
remaining relations unprocessed; and when mode is `all` a stats-phase error
prevents the relations phase from running at all (the relation list is
returned untouched). -/
theorem claim_C4_amended :
    (∀ u t rels, (update_ref_housenumbers u t rels).2 = true)
    ∧ (∀ u t r rest, update_ref_streets_step u t r = .error () →
        update_ref_streets u t (r :: rest) = (r :: rest, false))
    ∧ (∀ u t r rest, update_missing_streets_step u t r = .error () →
        update_missing_streets u t (r :: rest) = (r :: rest, false))
    ∧ (∀ u t r rest, update_missing_housenumbers_step u t r = .error () →
        update_missing_housenumbers u t (r :: rest) = (r :: rest, false))
    ∧ (∀ u t r rest, update_additional_streets_step u t r = .error () →
        update_additional_streets u t (r :: rest) = (r :: rest, false))
    ∧ (∀ u overpass sin t rels injected so, update_stats overpass t sin = .errored so →
        our_main "all" u overpass sin t rels injected = .errored ⟨some so, rels⟩) := by
  refine ⟨?_, ?_, ?_, ?_, ?_, ?_⟩
  · intro u t rels
    apply runTaskList_flag
    intro r _
    unfold update_ref_housenumbers_step
    split_ifs
    · exact ⟨r, rfl⟩
    · exact ⟨r, rfl⟩
    · exact ⟨r, rfl⟩
    · cases hw : r.refHousenumbersWrite with
      | error e => exact ⟨r, rfl⟩
      | ok content => exact ⟨_, rfl⟩
  · intro u t r rest h
    simp [update_ref_streets, runTaskList, h]
  · intro u t r rest h
    simp [update_missing_streets, runTaskList, h]
  · intro u t r rest h
    simp [update_missing_housenumbers, runTaskList, h]
  · intro u t r rest h
    simp [update_additional_streets, runTaskList, h]
  · intro u overpass sin t rels injected so h
    simp [our_main, h]

theorem claim_C4_amended_witness :
    (update_ref_housenumbers true 0 [relWriteErrFix]).2 = true
    ∧ update_ref_streets true 0 [relWriteErrFix, relFix] = ([relWriteErrFix, relFix], false)
    ∧ update_missing_streets true 0 [relWriteErrFix, relFix] =
        ([relWriteErrFix, relFix], false)
    ∧ update_missing_housenumbers true 0 [relWriteErrFix, relFix] =
        ([relWriteErrFix, relFix], false)
    ∧ update_additional_streets true 0 [relWriteErrFix, relFix] =
        ([relWriteErrFix, relFix], false)
    ∧ our_main "all" true true sinWriteErrFix 0 [] "" = .errored ⟨some statsOutErrFix, []⟩ :=
  ⟨claim_C4_amended.1 true 0 [relWriteErrFix],
    claim_C4_amended.2.1 true 0 relWriteErrFix [relFix] rfl,
    claim_C4_amended.2.2.1 true 0 relWriteErrFix [relFix] rfl,
    claim_C4_amended.2.2.2.1 true 0 relWriteErrFix [relFix] rfl,
    claim_C4_amended.2.2.2.2.1 true 0 relWriteErrFix [relFix] rfl,
    claim_C4_amended.2.2.2.2.2 true true sinWriteErrFix 0 [] "" statsOutErrFix rfl⟩

theorem claim_C6_witness :
    relationsPhase false 1 [relFix] = ((relationsPhase false 1 [relFix]).1, true)
    ∧ relationsPhase false 2 (relationsPhase false 1 [relFix]).1 =
        ((relationsPhase false 1 [relFix]).1, true) := by
  have h1 : relationsPhase false 1 [relFix] = ((relationsPhase false 1 [relFix]).1, true) :=
    rfl
  exact ⟨h1, (claim_C6 1 2 [relFix] _ h1).1⟩

theorem str_append_cancel_right (a b c : String) (h : a ++ c = b ++ c) : a = b := by
  have hd := congrArg String.data h
  simp only [String.data_append] at hd
  exact String.ext (List.append_cancel_right hd)

theorem str_append_cancel_left (a b c : String) (h : a ++ b = a ++ c) : b = c := by
  have hd := congrArg String.data h
  simp only [String.data_append] at hd
  exact String.ext (List.append_cancel_left hd)

theorem append_count_ne_citycount (a b : String) : a ++ ".count" ≠ b ++ ".citycount" := by
  intro h
  have hd := congrArg (fun s : String => s.data.reverse.take 6) h
  simp only [String.data_append, List.reverse_append] at hd
  rw [List.take_append_of_le_length (by decide),
    List.take_append_of_le_length (by decide)] at hd
  exact absurd hd (by decide)

/-- Claim C3, corrected: when the first line of the day's extract begins with
the `<?xml` error marker, the row loop stops before aggregating anything, but
— contrary to the claim — `update_stats_count` still writes both files: the
`.count` file containing 0 and an empty `.citycount` file.  Prior days are
indeed untouched: the only two paths the function writes are derived from
`today`, so no other date's files can coincide with them. -/
theorem claim_C3_amended (ck : String → String → String) (sk : String → String)
    (l : String) (rest : List String) (hxml : starts_with l "<?xml" = true) :
    update_stats_count ck sk (some (l :: rest)) = .wrote 0 []
    ∧ ∀ s today d, d ≠ today →
        (s ++ "/" ++ d ++ ".count") ∉ update_stats_count_paths s today
        ∧ (s ++ "/" ++ d ++ ".citycount") ∉ update_stats_count_paths s today := by
  constructor
  · simp [update_stats_count, stats_count_loop, hxml, write_city_count_path, sortByLe,
      dedupConsec]
  · intro s today d hne
    constructor
    · intro hmem
      simp only [update_stats_count_paths, List.mem_cons, List.not_mem_nil, or_false,
        List.mem_singleton] at hmem
      rcases hmem with h1 | h2
      · exact hne (str_append_cancel_left (s ++ "/") d today
          (str_append_cancel_right _ _ ".count" h1))
      · exact append_count_ne_citycount (s ++ "/" ++ d) (s ++ "/" ++ today) h2
    · intro hmem
      simp only [update_stats_count_paths, List.mem_cons, List.not_mem_nil, or_false,
        List.mem_singleton] at hmem
      rcases hmem with h1 | h2
      · exact append_count_ne_citycount (s ++ "/" ++ today) (s ++ "/" ++ d) h1.symm
      · exact hne (str_append_cancel_left (s ++ "/") d today
          (str_append_cancel_right _ _ ".citycount" h2))

/-- Claim C3, counterexample to the claim as stated: on an extract whose first
line starts with `<?xml`, `update_stats_count` does NOT leave the two files
unwritten — it reaches the write calls after the `break` and produces a
`.count` file containing 0 and an empty `.citycount` file (`wrote` is the
files-were-written outcome; the no-file outcomes are `noCsv`/`panicked`). -/
theorem claim_C3_counterexample :
    update_stats_count ckFix skFix
      (some ["<?xml version=\"1.0\" encoding=\"UTF-8\"?>", "1111\tBudapest\tA\t1\tbob"]) =
      .wrote 0 [] := by
  decide

theorem claim_C3_amended_witness :
    update_stats_count ckFix skFix (some ["<?xml version=\"1.0\"?>", "1\t2\t3\t4\t5"]) =
      .wrote 0 []
    ∧ ("stats" ++ "/" ++ "2020-05-09" ++ ".count") ∉
        update_stats_count_paths "stats" "2020-05-10" := by
  have h := claim_C3_amended ckFix skFix "<?xml version=\"1.0\"?>" ["1\t2\t3\t4\t5"]
    (by decide)
  exact ⟨h.1, (h.2 "stats" "2020-05-10" "2020-05-09" (by decide)).1⟩

theorem stats_count_loop_no_panic (ck : String → String → String) :
    ∀ rows (hns : Finset String) cities,
      (∀ l ∈ rows, starts_with l "<?xml" = false → 4 ≤ (splitTab l).length) →
      stats_count_loop ck rows false hns cities ≠ none := by
  intro rows
  induction rows with
  | nil =>
    intro hns cities _
    simp [stats_count_loop]
  | cons l rest ih =>
    intro hns cities hwf
    by_cases hx : starts_with l "<?xml" = true
    · simp [stats_count_loop, hx]
    · have hx' : starts_with l "<?xml" = false := by
        simpa using hx
      have h4 := hwf l (List.mem_cons_self l rest) hx'
      have := ih (insert (tabJoin ((splitTab l).take 4)) hns)
        (upsert (ck ((splitTab l).getD 0 "") ((splitTab l).getD 1 ""))
          (tabJoin (((splitTab l).drop 2).take 2)) cities)
        fun l' hl' => hwf l' (List.mem_cons_of_mem l hl')
      simpa [stats_count_loop, hx, h4] using this

theorem stats_count_loop_keys (ck : String → String → String) :
    ∀ rows (hns : Finset String) cities,
      (∀ l ∈ rows, starts_with l "<?xml" = false ∧ 4 ≤ (splitTab l).length) →
      ∃ cs, stats_count_loop ck rows false hns cities =
        some (hns ∪ (rows.map dedupKey).toFinset, cs) := by
  intro rows
  induction rows with
  | nil =>
    intro hns cities _
    exact ⟨cities, by simp [stats_count_loop]⟩
  | cons l rest ih =>
    intro hns cities hwf
    obtain ⟨hx, h4⟩ := hwf l (List.mem_cons_self l rest)
    obtain ⟨cs, hcs⟩ := ih (insert (tabJoin ((splitTab l).take 4)) hns)
      (upsert (ck ((splitTab l).getD 0 "") ((splitTab l).getD 1 ""))
        (tabJoin (((splitTab l).drop 2).take 2)) cities)
      fun l' hl' => hwf l' (List.mem_cons_of_mem l hl')
    refine ⟨cs, ?_⟩
    rw [show stats_count_loop ck (l :: rest) false hns cities =
      stats_count_loop ck rest false (insert (tabJoin ((splitTab l).take 4)) hns)
        (upsert (ck ((splitTab l).getD 0 "") ((splitTab l).getD 1 ""))
          (tabJoin (((splitTab l).drop 2).take 2)) cities) from by
        simp [stats_count_loop, hx, h4]]
    rw [hcs]
    have : insert (tabJoin ((splitTab l).take 4)) hns ∪ (rest.map dedupKey).toFinset =
        hns ∪ ((l :: rest).map dedupKey).toFinset := by
      simp [dedupKey, List.toFinset_cons, Finset.insert_union, Finset.union_insert]
    rw [this]

/-- Claim C10: `update_stats_count` is panic-free whenever every line after
the header that does not start with `<?xml` has at least four tab-separated
fields, and it does panic (out-of-range slice, `panicked` outcome) on an
extract containing a shorter data line — for any city-key/sort-key
environment, since the panic occurs before they are consulted. -/
theorem claim_C10 :
    (∀ (ck : String → String → String) (sk : String → String) (l0 : String)
      (rest : List String),
      (∀ l ∈ rest, starts_with l "<?xml" = false → 4 ≤ (splitTab l).length) →
      update_stats_count ck sk (some (l0 :: rest)) ≠ .panicked)
    ∧ ∀ (ck : String → String → String) (sk : String → String),
        update_stats_count ck sk (some ["header", "1\t2"]) = .panicked := by
  constructor
  · intro ck sk l0 rest hwf hpan
    rcases hsome : stats_count_loop ck (l0 :: rest) true ∅ [] with _ | pair
    · by_cases hx : starts_with l0 "<?xml" = true
      · rw [show stats_count_loop ck (l0 :: rest) true ∅ [] = some (∅, []) from by
          simp [stats_count_loop, hx]] at hsome
        cases hsome
      · rw [show stats_count_loop ck (l0 :: rest) true ∅ [] =
          stats_count_loop ck rest false ∅ [] from by simp [stats_count_loop, hx]] at hsome
        exact stats_count_loop_no_panic ck rest ∅ [] hwf hsome
    · obtain ⟨hn, cs⟩ := pair
      rw [show update_stats_count ck sk (some (l0 :: rest)) =
        .wrote hn.card (write_city_count_path sk cs) from by
          simp [update_stats_count, hsome]] at hpan
      cases hpan
  · intro ck sk
    rfl

theorem claim_C10_witness :
    update_stats_count ckFix skFix (some ["h", "1\t2\t3\t4\t5"]) ≠ .panicked
    ∧ update_stats_count ckFix skFix (some ["header", "1\t2"]) = .panicked :=
  ⟨claim_C10.1 ckFix skFix "h" ["1\t2\t3\t4\t5"] (by decide), claim_C10.2 ckFix skFix⟩

/-- Claim C8: in the distinct-housenumber count, rows are identified by
`cells[0..4].join("\t")` — the first four tab-separated fields.  On a
well-formed extract the `.count` value is exactly the number of distinct such
keys among the data rows, and the key is invariant under any change beyond
the first four fields (in particular the editor column never affects
identity, so two rows differing only there contribute one element). -/
theorem claim_C8 (ck : String → String → String) (sk : String → String)
    (hdr : String) (rows : List String) (hh : starts_with hdr "<?xml" = false)
    (hwf : ∀ l ∈ rows, starts_with l "<?xml" = false ∧ 4 ≤ (splitTab l).length) :
    (∃ cc, update_stats_count ck sk (some (hdr :: rows)) =
      .wrote ((rows.map dedupKey).toFinset.card) cc)
    ∧ ∀ l1 l2 : String, (splitTab l1).take 4 = (splitTab l2).take 4 →
        dedupKey l1 = dedupKey l2 := by
  constructor
  · obtain ⟨cs, hcs⟩ := stats_count_loop_keys ck rows ∅ [] hwf
    refine ⟨write_city_count_path sk cs, ?_⟩
    have hloop : stats_count_loop ck (hdr :: rows) true ∅ [] =
        some (∅ ∪ (rows.map dedupKey).toFinset, cs) := by
      rw [show stats_count_loop ck (hdr :: rows) true ∅ [] =
        stats_count_loop ck rows false ∅ [] from by simp [stats_count_loop, hh]]
      exact hcs
    simp [update_stats_count, hloop]
  · intro l1 l2 h
    unfold dedupKey
    rw [h]

theorem claim_C8_witness :
    ∃ cc, update_stats_count ckFix skFix
      (some ["postcode\tcity\tstreet\thousenumber\tuser",
        "1111\tBudapest\tFő utca\t1\talice", "1111\tBudapest\tFő utca\t1\tbob"]) =
      .wrote 1 cc := by
  obtain ⟨cc, hcc⟩ := (claim_C8 ckFix skFix "postcode\tcity\tstreet\thousenumber\tuser"
    ["1111\tBudapest\tFő utca\t1\talice", "1111\tBudapest\tFő utca\t1\tbob"]
    (by decide) (by decide)).1
  refine ⟨cc, ?_⟩
  rw [hcc]
  congr 1

theorem remove_old_csv_not_mem :
    ∀ files kept, remove_old_csv files = some kept →
      ∀ f : StatFile, f.ext = some "csv" → f.isFile = true → 24 * 3600 * 7 ≤ f.ageSecs →
        f ∉ kept := by
  intro files
  induction files with
  | nil =>
    intro kept h f _ _ _
    cases h
    exact List.not_mem_nil f
  | cons g rest ih =>
    intro kept h f hext hfile hage hmem
    cases hg : g.ext with
    | none =>
      simp only [remove_old_csv, hg] at h
      cases h
    | some e =>
      simp only [remove_old_csv, hg] at h
      by_cases hcsv : e ≠ "csv"
      · rw [if_pos hcsv] at h
        rcases hrest : remove_old_csv rest with _ | kept'
        · rw [hrest] at h
          cases h
        · rw [hrest] at h
          cases h
          rcases List.mem_cons.mp hmem with rfl | hmem'
          · rw [hg] at hext
            cases hext
            exact hcsv rfl
          · exact ih kept' hrest f hext hfile hage hmem'
      · rw [if_neg hcsv] at h
        by_cases hrem : 24 * 3600 * 7 ≤ g.ageSecs ∧ g.isFile = true
        · rw [if_pos hrem] at h
          exact ih kept h f hext hfile hage hmem
        · rw [if_neg hrem] at h
          rcases hrest : remove_old_csv rest with _ | kept'
          · rw [hrest] at h
            cases h
          · rw [hrest] at h
            cases h
            rcases List.mem_cons.mp hmem with rfl | hmem'
            · exact hrem ⟨hage, hfile⟩
            · exact ih kept' hrest f hext hfile hage hmem'

theorem remove_old_csv_mem_young :
    ∀ files kept, remove_old_csv files = some kept →
      ∀ f ∈ files, ¬24 * 3600 * 7 ≤ f.ageSecs → f ∈ kept := by
  intro files
  induction files with
  | nil =>
    intro kept _ f hf
    cases hf
  | cons g rest ih =>
    intro kept h f hf hyoung
    cases hg : g.ext with
    | none =>
      simp only [remove_old_csv, hg] at h
      cases h
    | some e =>
      simp only [remove_old_csv, hg] at h
      by_cases hcsv : e ≠ "csv"
      · rw [if_pos hcsv] at h
        rcases hrest : remove_old_csv rest with _ | kept'
        · rw [hrest] at h
          cases h
        · rw [hrest] at h
          cases h
          rcases List.mem_cons.mp hf with rfl | hf'
          · exact List.mem_cons_self f kept'
          · exact List.mem_cons_of_mem g (ih kept' hrest f hf' hyoung)
      · rw [if_neg hcsv] at h
        by_cases hrem : 24 * 3600 * 7 ≤ g.ageSecs ∧ g.isFile = true
        · rw [if_pos hrem] at h
          rcases List.mem_cons.mp hf with rfl | hf'
          · exact absurd hrem.1 hyoung
          · exact ih kept h f hf' hyoung
        · rw [if_neg hrem] at h
          rcases hrest : remove_old_csv rest with _ | kept'
          · rw [hrest] at h
            cases h
          · rw [hrest] at h
            cases h
            rcases List.mem_cons.mp hf with rfl | hf'
            · exact List.mem_cons_self f kept'
            · exact List.mem_cons_of_mem g (ih kept' hrest f hf' hyoung)

theorem update_stats_aggregate_ok_files (sin : StatsIn) (out1 out : StatsOut)
    (h : update_stats_aggregate sin out1 = .ok out) :
    remove_old_csv out1.files = some out.files := by
  unfold update_stats_aggregate at h
  dsimp only [] at h
  repeat' split at h
  all_goals try exact Run.noConfusion h
  all_goals (cases h; simp_all)

/-- Claim C9: whenever a stats-phase run completes — whatever the Overpass
remote did, including total fetch failure — the retention scan has run:
every regular `.csv` file in the stats directory older than 7×24 hours
(604800 seconds) is absent from the retained listing, and every file aged
strictly less than 7×24 hours is retained. -/
theorem claim_C9 (overpass : Bool) (t : Nat) (sin : StatsIn) (out : StatsOut)
    (h : update_stats overpass t sin = .ok out) :
    (∀ f ∈ sin.files, f.ext = some "csv" → f.isFile = true →
      24 * 3600 * 7 < f.ageSecs → f ∉ out.files)
    ∧ ∀ f ∈ sin.files, f.ageSecs < 24 * 3600 * 7 → f ∈ out.files := by
  have hfiles : remove_old_csv sin.files = some out.files := by
    cases overpass with
    | false =>
      rw [show update_stats false t sin =
        update_stats_aggregate sin ⟨sin.csv0, none, none, none, none, none, sin.files, false⟩
        from rfl] at h
      exact update_stats_aggregate_ok_files sin _ out h
    | true =>
      rcases hfl : statsFetchLoop sin.attempts t with e | fr
      · have hred : update_stats true t sin =
            Run.errored ⟨sin.csv0, none, none, none, none, none, sin.files, false⟩ := by
          simp [update_stats, hfl]
        rw [hred] at h
        exact Run.noConfusion h
      · rcases hw : fr.written with _ | w
        · have hred : update_stats true t sin = update_stats_aggregate sin
              ⟨sin.csv0, none, none, none, none, none, sin.files, false⟩ := by
            simp [update_stats, hfl, hw]
          rw [hred] at h
          exact update_stats_aggregate_ok_files sin _ out h
        · have hred : update_stats true t sin = update_stats_aggregate sin
              ⟨some w.1, none, none, none, none, none, sin.files, false⟩ := by
            simp [update_stats, hfl, hw]
          rw [hred] at h
          exact update_stats_aggregate_ok_files sin _ out h
  constructor
  · intro f _ hext hfile hage
    exact remove_old_csv_not_mem sin.files out.files hfiles f hext hfile (le_of_lt hage)
  · intro f hf hyoung
    exact remove_old_csv_mem_young sin.files out.files hfiles f hf (not_le.mpr hyoung)

theorem claim_C9_witness :
    update_stats true 0 sinRetFix = .ok statsOutRetFix
    ∧ oldCsvFix ∉ statsOutRetFix.files
    ∧ youngCsvFix ∈ statsOutRetFix.files := by
  have h : update_stats true 0 sinRetFix = .ok statsOutRetFix := by decide
  obtain ⟨h1, h2⟩ := claim_C9 true 0 sinRetFix statsOutRetFix h
  exact ⟨h, h1 oldCsvFix (by decide) rfl rfl (by decide),
    h2 youngCsvFix (by decide) (by decide)⟩

theorem insertLe_perm {α : Type} (le : α → α → Bool) (x : α) :
    ∀ l : List α, (insertLe le x l).Perm (x :: l) := by
  intro l
  induction l with
  | nil => exact List.Perm.refl _
  | cons y ys ih =>
    by_cases hxy : le x y = true
    · simp [insertLe, hxy]
    · simp only [insertLe, hxy, if_false]
      exact (ih.cons y).trans (List.Perm.swap x y ys)

theorem sortByLe_perm {α : Type} (le : α → α → Bool) :
    ∀ l : List α, (sortByLe le l).Perm l := by
  intro l
  induction l with
  | nil => exact List.Perm.refl _
  | cons x xs ih =>
    exact (insertLe_perm le x (sortByLe le xs)).trans (ih.cons x)

theorem insertLe_pairwise {α : Type} (le : α → α → Bool)
    (htot : ∀ a b, le a b = true ∨ le b a = true)
    (htrans : ∀ a b c, le a b = true → le b c = true → le a c = true) (x : α) :
    ∀ l, l.Pairwise (fun a b => le a b = true) →
      (insertLe le x l).Pairwise (fun a b => le a b = true) := by
  intro l
  induction l with
  | nil =>
    intro _
    simp [insertLe]
  | cons y ys ih =>
    intro hp
    rcases List.pairwise_cons.mp hp with ⟨hy, hys⟩
    by_cases hxy : le x y = true
    · simp only [insertLe, hxy, if_true]
      refine List.pairwise_cons.mpr ⟨?_, hp⟩
      intro b hb
      rcases List.mem_cons.mp hb with rfl | hb
      · exact hxy
      · exact htrans x y b hxy (hy b hb)
    · simp only [insertLe, hxy, if_false]
      refine List.pairwise_cons.mpr ⟨?_, ih hys⟩
      intro b hb
      have hmem := (insertLe_perm le x ys).mem_iff.mp hb
      rcases List.mem_cons.mp hmem with heq | hb'
      · rw [heq]
        rcases htot x y with hc | hc
        · exact absurd hc hxy
        · exact hc
      · exact hy b hb'

theorem sortByLe_pairwise {α : Type} (le : α → α → Bool)
    (htot : ∀ a b, le a b = true ∨ le b a = true)
    (htrans : ∀ a b c, le a b = true → le b c = true → le a c = true) :
    ∀ l : List α, (sortByLe le l).Pairwise (fun a b => le a b = true) := by
  intro l
  induction l with
  | nil => exact List.Pairwise.nil
  | cons x xs ih => exact insertLe_pairwise le htot htrans x (sortByLe le xs) ih

theorem dedupConsec_sublist {α : Type} [DecidableEq α] :
    ∀ l : List α, List.Sublist (dedupConsec l) l := by
  intro l
  induction l with
  | nil => exact List.Sublist.refl _
  | cons x xs ih =>
    cases xs with
    | nil => exact List.Sublist.refl _
    | cons y rest =>
      by_cases hxy : x = y
      · rw [show dedupConsec (x :: y :: rest) = dedupConsec (y :: rest) from by
          simp [dedupConsec, hxy]]
        exact ih.trans (List.sublist_cons_self x (y :: rest))
      · rw [show dedupConsec (x :: y :: rest) = x :: dedupConsec (y :: rest) from by
          simp [dedupConsec, hxy]]
        exact ih.cons₂ x

theorem lookupCount_bumpUser :
    ∀ (acc : List (String × Nat)) (u k : String),
      lookupCount (bumpUser acc u) k = lookupCount acc k + (if k = u then 1 else 0) := by
  intro acc
  induction acc with
  | nil =>
    intro u k
    by_cases h : k = u
    · simp [bumpUser, lookupCount, h]
    · simp [bumpUser, lookupCount, h, Ne.symm h]
  | cons p rest ih =>
    obtain ⟨a, n⟩ := p
    intro u k
    by_cases hau : a = u
    · subst hau
      by_cases hak : a = k
      · subst hak
        simp [bumpUser, lookupCount]
      · simp [bumpUser, lookupCount, hak, Ne.symm hak]
    · by_cases hak : a = k
      · subst hak
        simp [bumpUser, lookupCount, hau, Ne.symm hau]
      · simp [bumpUser, lookupCount, hau, hak, ih]

theorem lookupCount_tallyUsers :
    ∀ (lines : List String) (acc : List (String × Nat)) (k : String),
      lookupCount (List.foldl (fun acc line => bumpUser acc (last_cell line)) acc lines) k =
        lookupCount acc k + (lines.map last_cell).count k := by
  intro lines
  induction lines with
  | nil =>
    intro acc k
    simp
  | cons l rest ih =>
    intro acc k
    simp only [List.foldl_cons, List.map_cons]
    rw [ih (bumpUser acc (last_cell l)) k, lookupCount_bumpUser]
    simp only [List.count_cons, beq_iff_eq]
    rcases eq_or_ne k (last_cell l) with hk | hk
    · subst hk
      omega
    · rw [if_neg hk, if_neg (Ne.symm hk)]
      omega

theorem keys_bumpUser :
    ∀ (acc : List (String × Nat)) (u : String),
      (bumpUser acc u).map Prod.fst =
        if u ∈ acc.map Prod.fst then acc.map Prod.fst else acc.map Prod.fst ++ [u] := by
  intro acc
  induction acc with
  | nil =>
    intro u
    simp [bumpUser]
  | cons p rest ih =>
    obtain ⟨a, n⟩ := p
    intro u
    by_cases hau : a = u
    · subst hau
      simp [bumpUser]
    · have hua : ¬u = a := fun hc => hau hc.symm
      by_cases hm : u ∈ rest.map Prod.fst
      · simp [bumpUser, hau, ih u, hm, hua]
      · simp [bumpUser, hau, ih u, hm, hua]

theorem mem_keys_bumpUser (acc : List (String × Nat)) (u k : String) :
    k ∈ (bumpUser acc u).map Prod.fst ↔ k ∈ acc.map Prod.fst ∨ k = u := by
  rw [keys_bumpUser]
  by_cases hm : u ∈ acc.map Prod.fst
  · rw [if_pos hm]
    exact ⟨Or.inl, fun h => h.elim id fun hk => hk ▸ hm⟩
  · rw [if_neg hm]
    simp [List.mem_append]

theorem keys_nodup_bumpUser (acc : List (String × Nat)) (u : String)
    (h : (acc.map Prod.fst).Nodup) : ((bumpUser acc u).map Prod.fst).Nodup := by
  rw [keys_bumpUser]
  by_cases hm : u ∈ acc.map Prod.fst
  · rw [if_pos hm]
    exact h
  · rw [if_neg hm]
    refine h.append (List.nodup_singleton u) ?_
    intro x hx hy
    rw [List.mem_singleton] at hy
    exact hm (hy ▸ hx)

theorem tallyUsers_keys_nodup (lines : List String) :
    ((tallyUsers lines).map Prod.fst).Nodup := by
  have key : ∀ (ls : List String) (acc : List (String × Nat)),
      (acc.map Prod.fst).Nodup →
      ((List.foldl (fun acc line => bumpUser acc (last_cell line)) acc ls).map
        Prod.fst).Nodup := by
    intro ls
    induction ls with
    | nil => intro acc h; exact h
    | cons l rest ih =>
      intro acc h
      exact ih (bumpUser acc (last_cell l)) (keys_nodup_bumpUser acc (last_cell l) h)
  exact key lines [] List.nodup_nil

theorem mem_keys_tallyUsers (lines : List String) (k : String) :
    k ∈ (tallyUsers lines).map Prod.fst ↔ k ∈ lines.map last_cell := by
  have key : ∀ (ls : List String) (acc : List (String × Nat)),
      (k ∈ (List.foldl (fun acc line => bumpUser acc (last_cell line)) acc ls).map Prod.fst ↔
        k ∈ acc.map Prod.fst ∨ k ∈ ls.map last_cell) := by
    intro ls
    induction ls with
    | nil =>
      intro acc
      simp
    | cons l rest ih =>
      intro acc
      simp only [List.foldl_cons, List.map_cons, List.mem_cons]
      rw [ih (bumpUser acc (last_cell l)), mem_keys_bumpUser]
      tauto
  rw [show tallyUsers lines = List.foldl (fun acc line => bumpUser acc (last_cell line)) []
    lines from rfl, key lines []]
  simp

theorem lookupCount_of_mem_nodup :
    ∀ (l : List (String × Nat)) (k : String) (v : Nat),
      (k, v) ∈ l → (l.map Prod.fst).Nodup → lookupCount l k = v := by
  intro l
  induction l with
  | nil =>
    intro k v hm
    cases hm
  | cons p rest ih =>
    obtain ⟨a, n⟩ := p
    intro k v hm hnd
    have hnd' : a ∉ rest.map Prod.fst ∧ (rest.map Prod.fst).Nodup := by
      rw [List.map_cons, List.nodup_cons] at hnd
      exact hnd
    rcases List.mem_cons.mp hm with heq | hm'
    · cases heq
      simp [lookupCount]
    · by_cases hak : a = k
      · exfalso
        apply hnd'.1
        subst hak
        exact List.mem_map.mpr ⟨(a, v), hm', rfl⟩
      · simp only [lookupCount, hak, if_false]
        exact ih k v hm' hnd'.2

theorem tallyUsers_length (lines : List String) :
    (tallyUsers lines).length = (lines.map last_cell).toFinset.card := by
  have hnodup := tallyUsers_keys_nodup lines
  calc (tallyUsers lines).length
      = ((tallyUsers lines).map Prod.fst).length := (List.length_map _ _).symm
    _ = ((tallyUsers lines).map Prod.fst).toFinset.card :=
        (List.toFinset_card_of_nodup hnodup).symm
    _ = (lines.map last_cell).toFinset.card := by
        congr 1
        ext k
        simp only [List.mem_toFinset]
        exact mem_keys_tallyUsers lines k

/-- Claim C7, corrected: `update_stats_topusers` does NOT discard the header
line — its tally loop has no first-line skip, so the header's last column is
counted like any editor.  The rest of the claim holds: it counts raw
(non-deduplicated) line occurrences per distinct last-column value over all
lines of the extract, writes at most 20 `(count, editor)` lines sorted
descending by count, and writes the total number of distinct last-column
values (header included) as the user count, independent of the top-20
truncation. -/
theorem claim_C7_amended (lines : List String) (res : TopusersResult)
    (h : update_stats_topusers (some lines) = some res) :
    res.topusers.length ≤ 20
    ∧ res.topusers.Pairwise (fun a b => b.1 ≤ a.1)
    ∧ (∀ p ∈ res.topusers, p.1 = (lines.map last_cell).count p.2)
    ∧ res.usercount = (lines.map last_cell).toFinset.card := by
  unfold update_stats_topusers at h
  dsimp only [] at h
  cases h
  have htot : ∀ a b : String × Nat,
      decide (b.2 ≤ a.2) = true ∨ decide (a.2 ≤ b.2) = true := by
    intro a b
    rcases Nat.le_total b.2 a.2 with hc | hc
    · exact Or.inl (decide_eq_true hc)
    · exact Or.inr (decide_eq_true hc)
  have htrans : ∀ a b c : String × Nat, decide (b.2 ≤ a.2) = true →
      decide (c.2 ≤ b.2) = true → decide (c.2 ≤ a.2) = true := by
    intro a b c hab hbc
    exact decide_eq_true (le_trans (of_decide_eq_true hbc) (of_decide_eq_true hab))
  have hsorted := sortByLe_pairwise (fun a b : String × Nat => decide (b.2 ≤ a.2))
    htot htrans (tallyUsers lines)
  have hsub : List.Sublist
      ((dedupConsec (sortByLe (fun a b : String × Nat => decide (b.2 ≤ a.2))
        (tallyUsers lines))).take (min 20 (dedupConsec (sortByLe
          (fun a b : String × Nat => decide (b.2 ≤ a.2)) (tallyUsers lines))).length))
      (sortByLe (fun a b : String × Nat => decide (b.2 ≤ a.2)) (tallyUsers lines)) :=
    (List.take_sublist _ _).trans (dedupConsec_sublist _)
  refine ⟨?_, ?_, ?_, tallyUsers_length lines⟩
  · simp only [List.length_map, List.length_take]
    omega
  · rw [List.pairwise_map]
    exact (hsorted.sublist hsub).imp fun hab => of_decide_eq_true hab
  · intro p hp
    rcases List.mem_map.mp hp with ⟨q, hq, rfl⟩
    have hqu : q ∈ tallyUsers lines :=
      (sortByLe_perm (fun a b : String × Nat => decide (b.2 ≤ a.2))
        (tallyUsers lines)).mem_iff.mp (hsub.mem hq)
    obtain ⟨k, v⟩ := q
    have hl := lookupCount_of_mem_nodup (tallyUsers lines) k v hqu
      (tallyUsers_keys_nodup lines)
    have hcount : lookupCount (tallyUsers lines) k = (lines.map last_cell).count k := by
      simpa [tallyUsers, lookupCount] using lookupCount_tallyUsers lines [] k
    exact hl.symm.trans hcount

/-- Claim C7, counterexample to the claim as stated: on a two-line extract
(header plus one data row by `alice`) the header is NOT discarded — its last
column `user` is tallied as an editor, so the function writes two topusers
lines and a distinct-editor count of 2, where the claim (header discarded)
predicts one line `1 alice` and a count of 1. -/
theorem claim_C7_counterexample :
    update_stats_topusers (some ["p\tc\ts\th\tuser", "1\t2\t3\t4\talice"]) =
      some ⟨[(1, "user"), (1, "alice")], 2⟩ := by
  decide

theorem claim_C7_amended_witness :
    topusersFix.topusers.length ≤ 20
    ∧ topusersFix.topusers.Pairwise (fun a b => b.1 ≤ a.1)
    ∧ (∀ p ∈ topusersFix.topusers, p.1 = (linesFix.map last_cell).count p.2)
    ∧ topusersFix.usercount = (linesFix.map last_cell).toFinset.card :=
  claim_C7_amended linesFix topusersFix (by decide)

end Gimmisn
